import Mathlib

/-!
DBOE_INA226: a shallow embedding of the INA226 driver class.

The methods of `INA226_Class` (src/DBOE_INA226.cpp) are embedded as functions on an explicit
state `Sys`, which pairs the object (`INA226_Class`) with the Arduino `Wire` bus object
(`TwoWire`).  Machine integers are `Nat` (unsigned, reduced `% 2^w`) and `Int` (signed,
wrapped by `i16`/`i32`/`i64`).  Undefined behaviour of the C++ code (an index outside
`inaARRAY`, a division by zero) and a busy-wait that does not end within the given fuel are
results `Except.error`.
-/

namespace DBOE_INA226

/-! ## Machine integers -/

/-- Value of a signed integer after conversion to `int16_t` (two's complement wrap). -/
def i16 (x : Int) : Int := (x + 2 ^ 15) % 2 ^ 16 - 2 ^ 15

/-- Value of a signed integer after conversion to `int32_t` (two's complement wrap). -/
def i32 (x : Int) : Int := (x + 2 ^ 31) % 2 ^ 32 - 2 ^ 31

/-- Value of a signed integer after conversion to `int64_t` (two's complement wrap). -/
def i64 (x : Int) : Int := (x + 2 ^ 63) % 2 ^ 64 - 2 ^ 63

/-- The 16-bit pattern of an integer: its value after conversion to `uint16_t`. -/
def bits16 (x : Int) : Nat := (x % 2 ^ 16).toNat

/-- Arduino `bitRead(value, bit)`: `((value) >> (bit)) & 0x01`. -/
def bitRead (value bit : Nat) : Nat := (value >>> bit) &&& 1

/-! ## Constants of DBOE_INA226.h -/

def INA_DEFAULT : Nat := 0x40
abbrev INA_COUNT : Nat := 3
def INA_CONFIG_REG : Nat := 0
def INA_SHUNT_VOLT_REG : Nat := 1
def INA_BUS_VOLT_REG : Nat := 2
def INA_POWER_REGISTER : Nat := 3
def INA_CURRENT_REGISTER : Nat := 4
def INA_CALIBRATION_REG : Nat := 5
def INA_MASK_ENABLE_REG : Nat := 6
def INA_RESET_DEVICE : Nat := 0x8000
def INA_DEFAULT_CONFIG : Nat := 0x4127
def INA_BUS_VOLT_LSB : Nat := 125
def INA_SHUNT_VOLT_LSB : Nat := 25
def INA_CONFIG_AVG_MASK : Nat := 0x0E00
def INA_BUS_TIME_MASK : Nat := 0x01C0
def INA_SHUNT_TIME_MASK : Nat := 0x0038
def INA_CONV_RDY_MASK : Nat := 0x0080
def INA_CONFIG_MODE_MASK : Nat := 0x0007

/-- The 16-bit pattern of `~mask` for a (non-negative `int`) mask constant. -/
def notMask (mask : Nat) : Nat := (2 ^ 16 - 1) - mask % 2 ^ 16

/-! ## The `Wire` bus object

The bus transport is not part of the repository.  It is modelled as a transaction log plus
two oracles for what the devices on the bus do: the status of a finished transmission and the
bytes offered to a read request, both as functions of everything that happened on the bus so
far (the event in question included).
-/

/-- One completed bus transaction. -/
inductive BusEvent where
  | transmit (address : Nat) (bytes : List Nat)
  | request (address : Nat) (quantity : Nat)
  deriving DecidableEq, Repr

/-- State of the `Wire` object and of the devices behind it. -/
structure TwoWire where
  /-- Address given to the last `beginTransmission`. -/
  txAddress : Nat
  /-- Bytes queued by `write` since the last `beginTransmission`. -/
  txBuffer : List Nat
  /-- Bytes received by the last `requestFrom` and not yet taken by `read`. -/
  rxBuffer : List Nat
  /-- Completed transactions, newest first. -/
  log : List BusEvent
  /-- Status code `endTransmission` returns (0: acknowledged), given the log. -/
  endStatus : List BusEvent → Nat
  /-- Bytes the addressed device offers to a `requestFrom`, given the log. -/
  respond : List BusEvent → List Nat

namespace Wire

/-- Method `Wire.beginTransmission(uint8_t address)`. -/
def beginTransmission (address : Nat) (w : TwoWire) : TwoWire :=
  { w with txAddress := address % 2 ^ 8, txBuffer := [] }

/-- Method `Wire.write(uint8_t data)` (`Wire.send` on old cores). -/
def write (data : Nat) (w : TwoWire) : TwoWire :=
  { w with txBuffer := w.txBuffer ++ [data % 2 ^ 8] }

/-- Method `Wire.endTransmission()`: sends the queued bytes and returns the status code. -/
def endTransmission (w : TwoWire) : Nat × TwoWire :=
  (w.endStatus (BusEvent.transmit w.txAddress w.txBuffer :: w.log) % 2 ^ 8,
   { w with log := BusEvent.transmit w.txAddress w.txBuffer :: w.log, txBuffer := [] })

/-- Method `Wire.requestFrom(uint8_t address, uint8_t quantity)`. -/
def requestFrom (address quantity : Nat) (w : TwoWire) : TwoWire :=
  { w with
    log := BusEvent.request (address % 2 ^ 8) (quantity % 2 ^ 8) :: w.log,
    rxBuffer := ((w.respond (BusEvent.request (address % 2 ^ 8) (quantity % 2 ^ 8) :: w.log)).take
      (quantity % 2 ^ 8)).map (fun b => b % 2 ^ 8) }

/-- Method `Wire.read()` (`Wire.receive` on old cores): the next received byte, or -1 if none. -/
def read (w : TwoWire) : Int × TwoWire :=
  match w.rxBuffer with
  | [] => (-1, w)
  | b :: rest => ((b : Int), { w with rxBuffer := rest })

end Wire

/-! ## Data model -/

/-- Structure `inaSTRUCT`: the values held per device. -/
structure inaSTRUCT where
  address : Nat
  calibration : Nat
  current_LSB : Nat
  power_LSB : Nat
  operatingMode : Nat
  deriving DecidableEq, Repr

/-- Private members of `INA226_Class`. -/
structure INA226_Class where
  _TransmissionStatus : Nat
  inaARRAY : Fin INA_COUNT → inaSTRUCT

/-- The object together with the bus it talks to. -/
structure Sys where
  ina : INA226_Class
  wire : TwoWire

/-- Undefined behaviour and non-termination, made explicit. -/
inductive Fault where
  | indexOutOfRange
  | divideByZero
  | outOfFuel
  deriving DecidableEq, Repr

/-! ## Register access -/

/-- Method `INA226_Class::inaReadWord`: reads 2 bytes from the specified register. -/
def inaReadWord (regAddr deviceAddr : Nat) (s : Sys) : Int × Sys :=
  let w1 := Wire.write (regAddr % 2 ^ 8) (Wire.beginTransmission (deviceAddr % 2 ^ 8) s.wire)
  let e := Wire.endTransmission w1
  let w2 := Wire.requestFrom (deviceAddr % 2 ^ 8) 2 e.2
  let r1 := Wire.read w2
  let returnData0 := bits16 r1.1
  let returnData1 := (returnData0 <<< 8) % 2 ^ 16
  let r2 := Wire.read r1.2
  let returnData2 := returnData1 ||| bits16 r2.1
  (i16 returnData2, { ina := { s.ina with _TransmissionStatus := e.1 }, wire := r2.2 })

/-- Method `INA226_Class::inaWriteWord`: writes 2 bytes to the specified register. -/
def inaWriteWord (regAddr regData deviceAddr : Nat) (s : Sys) : Sys :=
  let w0 := Wire.beginTransmission (deviceAddr % 2 ^ 8) s.wire
  let w1 := Wire.write (regAddr % 2 ^ 8) w0
  let w2 := Wire.write ((regData % 2 ^ 16) >>> 8) w1
  let w3 := Wire.write (regData % 2 ^ 16) w2
  let e := Wire.endTransmission w3
  { ina := { s.ina with _TransmissionStatus := e.1 }, wire := e.2 }

/-! ## Public methods -/

/-- Method `INA226_Class::begin`.  The parameter types are those of the definition in
DBOE_INA226.cpp: `uint8_t MAXmilliAmps, uint32_t CurrentSenseR, uint8_t UNIT_ID,
uint8_t I2C_ADDR`; the arguments are converted to them on entry.  `Wire.begin()` and
`delayMicroseconds` have no effect on the modelled state. -/
def begin (MAXmilliAmps CurrentSenseR UNIT_ID I2C_ADDR : Nat) (s : Sys) : Except Fault Sys :=
  let MAXmilliAmps := MAXmilliAmps % 2 ^ 8
  let CurrentSenseR := CurrentSenseR % 2 ^ 32
  let UNIT_ID := UNIT_ID % 2 ^ 8
  let I2C_ADDR := I2C_ADDR % 2 ^ 8
  let probe := Wire.endTransmission (Wire.beginTransmission I2C_ADDR s.wire)
  if probe.1 = 0 then
    let s1 := inaWriteWord INA_CONFIG_REG INA_RESET_DEVICE I2C_ADDR { s with wire := probe.2 }
    let rd := inaReadWord INA_CONFIG_REG I2C_ADDR s1
    if rd.1 = (INA_DEFAULT_CONFIG : Int) then
      if h : UNIT_ID < INA_COUNT then
        let current_LSB := (MAXmilliAmps * 1000000 % 2 ^ 64 / 32767) % 2 ^ 32
        let divisor := (current_LSB * CurrentSenseR % 2 ^ 64) / 100000
        if divisor = 0 then Except.error Fault.divideByZero
        else
          let calibration := (51200000 / divisor) % 2 ^ 16
          let power_LSB := (current_LSB * 25) % 2 ^ 32
          let slot : inaSTRUCT :=
            { address := I2C_ADDR, calibration := calibration, current_LSB := current_LSB,
              power_LSB := power_LSB, operatingMode := 0b111 }
          let s2 : Sys :=
            { rd.2 with ina := { rd.2.ina with
                inaARRAY := Function.update rd.2.ina.inaARRAY ⟨UNIT_ID, h⟩ slot } }
          Except.ok (inaWriteWord INA_CALIBRATION_REG calibration I2C_ADDR s2)
      else Except.error Fault.indexOutOfRange
    else Except.ok rd.2
  else Except.ok { s with wire := probe.2 }

/-- Method `INA226_Class::waitForConversion`: one unit of fuel per pass through the loop body. -/
def waitForConversion : Nat → Nat → Sys → Except Fault Sys
  | 0, _, _ => Except.error Fault.outOfFuel
  | fuel + 1, UNIT_ID, s =>
    if h : UNIT_ID % 2 ^ 8 < INA_COUNT then
      let rd := inaReadWord INA_MASK_ENABLE_REG (s.ina.inaARRAY ⟨UNIT_ID % 2 ^ 8, h⟩).address s
      let conversionBits := bits16 rd.1 &&& 8
      if conversionBits = 0 then waitForConversion fuel UNIT_ID rd.2 else Except.ok rd.2
    else Except.error Fault.indexOutOfRange

/-- The optional wait at the head of the two voltage reads: `if (waitSwitch)
waitForConversion();`, the call taking the default argument `UNIT_ID = 0` of the header. -/
def waitIf (fuel : Nat) (waitSwitch : Bool) (s : Sys) : Except Fault Sys :=
  if waitSwitch then waitForConversion fuel 0 s else Except.ok s

/-- The tail shared by the two voltage reads: in a triggered mode with the bus bit set, the
configuration register is read and written back. -/
def retrigger (slot : inaSTRUCT) (s : Sys) : Sys :=
  if bitRead slot.operatingMode 2 = 0 ∧ bitRead slot.operatingMode 1 ≠ 0 then
    let rd := inaReadWord INA_CONFIG_REG slot.address s
    inaWriteWord INA_CONFIG_REG (bits16 rd.1) slot.address rd.2
  else s

/-- Method `INA226_Class::getBusMilliVolts`. -/
def getBusMilliVolts (fuel : Nat) (waitSwitch : Bool) (UNIT_ID : Nat) (s : Sys) :
    Except Fault (Nat × Sys) :=
  match waitIf fuel waitSwitch s with
  | Except.error e => Except.error e
  | Except.ok s1 =>
    if h : UNIT_ID % 2 ^ 8 < INA_COUNT then
      let slot := s1.ina.inaARRAY ⟨UNIT_ID % 2 ^ 8, h⟩
      let rd := inaReadWord INA_BUS_VOLT_REG slot.address s1
      let busVoltage0 := bits16 rd.1
      let busVoltage := (busVoltage0 * INA_BUS_VOLT_LSB % 2 ^ 32 / 100) % 2 ^ 16
      Except.ok (busVoltage, retrigger slot rd.2)
    else Except.error Fault.indexOutOfRange

/-- Method `INA226_Class::getShuntMicroVolts`. -/
def getShuntMicroVolts (fuel : Nat) (waitSwitch : Bool) (UNIT_ID : Nat) (s : Sys) :
    Except Fault (Int × Sys) :=
  match waitIf fuel waitSwitch s with
  | Except.error e => Except.error e
  | Except.ok s1 =>
    if h : UNIT_ID % 2 ^ 8 < INA_COUNT then
      let slot := s1.ina.inaARRAY ⟨UNIT_ID % 2 ^ 8, h⟩
      let rd := inaReadWord INA_SHUNT_VOLT_REG slot.address s1
      let shuntVoltage0 := i32 rd.1
      let shuntVoltage := i32 (Int.tdiv (i32 (shuntVoltage0 * INA_SHUNT_VOLT_LSB)) 10)
      Except.ok (i16 shuntVoltage, retrigger slot rd.2)
    else Except.error Fault.indexOutOfRange

/-- Method `INA226_Class::getBusMicroAmps`. -/
def getBusMicroAmps (UNIT_ID : Nat) (s : Sys) : Except Fault (Int × Sys) :=
  if h : UNIT_ID % 2 ^ 8 < INA_COUNT then
    let slot := s.ina.inaARRAY ⟨UNIT_ID % 2 ^ 8, h⟩
    let rd := inaReadWord INA_CURRENT_REGISTER slot.address s
    let microAmps0 := i32 rd.1
    let microAmps := i32 (Int.tdiv (i64 (i64 microAmps0 * (slot.current_LSB : Int))) 1000)
    Except.ok (microAmps, rd.2)
  else Except.error Fault.indexOutOfRange

/-- Method `INA226_Class::getBusMicroWatts`. -/
def getBusMicroWatts (UNIT_ID : Nat) (s : Sys) : Except Fault (Int × Sys) :=
  if h : UNIT_ID % 2 ^ 8 < INA_COUNT then
    let slot := s.ina.inaARRAY ⟨UNIT_ID % 2 ^ 8, h⟩
    let rd := inaReadWord INA_POWER_REGISTER slot.address s
    let microWatts0 := i32 rd.1
    let microWatts := i32 (Int.tdiv (i64 (i64 microWatts0 * (slot.power_LSB : Int))) 1000)
    Except.ok (microWatts, rd.2)
  else Except.error Fault.indexOutOfRange

/-- Method `INA226_Class::setMode`. -/
def setMode (mode UNIT_ID : Nat) (s : Sys) : Except Fault Sys :=
  if h : UNIT_ID % 2 ^ 8 < INA_COUNT then
    let rd := inaReadWord INA_CONFIG_REG (s.ina.inaARRAY ⟨UNIT_ID % 2 ^ 8, h⟩).address s
    let configRegister0 := bits16 rd.1 &&& notMask INA_CONFIG_MODE_MASK
    let operatingMode := 0b00001111 &&& (mode % 2 ^ 8)
    let s1 : Sys :=
      { rd.2 with ina := { rd.2.ina with
          inaARRAY := Function.update rd.2.ina.inaARRAY ⟨UNIT_ID % 2 ^ 8, h⟩
            { rd.2.ina.inaARRAY ⟨UNIT_ID % 2 ^ 8, h⟩ with operatingMode := operatingMode } } }
    let configRegister := configRegister0 ||| (s1.ina.inaARRAY ⟨UNIT_ID % 2 ^ 8, h⟩).operatingMode
    Except.ok (inaWriteWord INA_CONFIG_REG configRegister
      (s1.ina.inaARRAY ⟨UNIT_ID % 2 ^ 8, h⟩).address s1)
  else Except.error Fault.indexOutOfRange

/-- Method `INA226_Class::reset`. -/
def reset (UNIT_ID : Nat) (s : Sys) : Except Fault Sys :=
  if h : UNIT_ID % 2 ^ 8 < INA_COUNT then
    Except.ok (inaWriteWord INA_CONFIG_REG 0x8000 (s.ina.inaARRAY ⟨UNIT_ID % 2 ^ 8, h⟩).address s)
  else Except.error Fault.indexOutOfRange

/-- Method `INA226_Class::setAveraging`. -/
def setAveraging (averages UNIT_ID : Nat) (s : Sys) : Except Fault Sys :=
  let averages := averages % 2 ^ 16
  if h : UNIT_ID % 2 ^ 8 < INA_COUNT then
    let rd := inaReadWord INA_CONFIG_REG (s.ina.inaARRAY ⟨UNIT_ID % 2 ^ 8, h⟩).address s
    let averageIndex : Nat :=
      if averages ≥ 1024 then 7
      else if averages ≥ 512 then 6
      else if averages ≥ 256 then 5
      else if averages ≥ 128 then 4
      else if averages ≥ 64 then 3
      else if averages ≥ 16 then 2
      else if averages ≥ 4 then 1
      else 0
    let configRegister0 := bits16 rd.1 &&& notMask INA_CONFIG_AVG_MASK
    let configRegister := configRegister0 ||| (averageIndex <<< 9)
    Except.ok (inaWriteWord INA_CONFIG_REG configRegister
      (rd.2.ina.inaARRAY ⟨UNIT_ID % 2 ^ 8, h⟩).address rd.2)
  else Except.error Fault.indexOutOfRange

/-- Method `INA226_Class::setBusConversion`. -/
def setBusConversion (convTime UNIT_ID : Nat) (s : Sys) : Except Fault Sys :=
  let convTime0 := convTime % 2 ^ 8
  let convTime := if convTime0 > 7 then 7 else convTime0
  if h : UNIT_ID % 2 ^ 8 < INA_COUNT then
    let rd := inaReadWord INA_CONFIG_REG (s.ina.inaARRAY ⟨UNIT_ID % 2 ^ 8, h⟩).address s
    let configRegister0 := bits16 rd.1 &&& notMask INA_BUS_TIME_MASK
    let configRegister := configRegister0 ||| (convTime <<< 6)
    Except.ok (inaWriteWord INA_CONFIG_REG configRegister
      (rd.2.ina.inaARRAY ⟨UNIT_ID % 2 ^ 8, h⟩).address rd.2)
  else Except.error Fault.indexOutOfRange

/-- Method `INA226_Class::setShuntConversion`. -/
def setShuntConversion (convTime UNIT_ID : Nat) (s : Sys) : Except Fault Sys :=
  let convTime0 := convTime % 2 ^ 8
  let convTime := if convTime0 > 7 then 7 else convTime0
  if h : UNIT_ID % 2 ^ 8 < INA_COUNT then
    let rd := inaReadWord INA_CONFIG_REG (s.ina.inaARRAY ⟨UNIT_ID % 2 ^ 8, h⟩).address s
    let configRegister0 := bits16 rd.1 &&& notMask INA_SHUNT_TIME_MASK
    let configRegister := configRegister0 ||| (convTime <<< 3)
    Except.ok (inaWriteWord INA_CONFIG_REG configRegister
      (rd.2.ina.inaARRAY ⟨UNIT_ID % 2 ^ 8, h⟩).address rd.2)
  else Except.error Fault.indexOutOfRange

/-- Method `INA226_Class::setAlertPinOnConversion`. -/
def setAlertPinOnConversion (alertState : Bool) (UNIT_ID : Nat) (s : Sys) : Except Fault Sys :=
  if h : UNIT_ID % 2 ^ 8 < INA_COUNT then
    let rd := inaReadWord INA_MASK_ENABLE_REG (s.ina.inaARRAY ⟨UNIT_ID % 2 ^ 8, h⟩).address s
    let alertRegister0 := bits16 rd.1
    let alertRegister :=
      if !alertState then alertRegister0 &&& notMask (1 <<< 10)
      else alertRegister0 ||| (1 <<< 10)
    Except.ok (inaWriteWord INA_MASK_ENABLE_REG alertRegister
      (rd.2.ina.inaARRAY ⟨UNIT_ID % 2 ^ 8, h⟩).address rd.2)
  else Except.error Fault.indexOutOfRange

/-- Modelled from the spec: `getOperatingMode` is declared in DBOE_INA226.h but the
repository holds no body for it; the spec describes the accessors as "getters for stored
address, calibration, current_lsb, power_lsb, and operating_mode, all indexed by unit_id with
no bounds checking against the fixed slot count". -/
def getOperatingMode (UNIT_ID : Nat) (s : Sys) : Except Fault Nat :=
  if h : UNIT_ID % 2 ^ 8 < INA_COUNT then
    Except.ok (s.ina.inaARRAY ⟨UNIT_ID % 2 ^ 8, h⟩).operatingMode
  else Except.error Fault.indexOutOfRange

/-! ## Concrete systems for evaluation -/

/-- A bus on which every transmission is acknowledged and every read request is answered
with the big-endian bytes of the word `word`. -/
def constWire (word : Nat) : TwoWire :=
  { txAddress := 0, txBuffer := [], rxBuffer := [], log := [],
    endStatus := fun _ => 0,
    respond := fun _ => [word / 256 % 256, word % 256] }

/-- The zero-initialised object. -/
def freshINA : INA226_Class :=
  { _TransmissionStatus := 0,
    inaARRAY := fun _ =>
      { address := 0, calibration := 0, current_LSB := 0, power_LSB := 0, operatingMode := 0 } }

/-- A fresh object on a bus whose device always answers `word`. -/
def freshSys (word : Nat) : Sys := { ina := freshINA, wire := constWire word }

/-- A fresh object whose slot 0 holds the given record, on a bus answering `word`. -/
def slotSys (slot : inaSTRUCT) (word : Nat) : Sys :=
  { ina := { freshINA with inaARRAY := Function.update freshINA.inaARRAY ⟨0, by decide⟩ slot },
    wire := constWire word }

/-! ## Specification vocabulary -/

/-- The device at `deviceAddr` answers the next word read of register `regAddr` in state `s`
with the two big-endian bytes of the 16-bit register content `raw`. -/
def delivers (s : Sys) (deviceAddr regAddr raw : Nat) : Prop :=
  s.wire.respond (BusEvent.request (deviceAddr % 2 ^ 8) 2 ::
      BusEvent.transmit (deviceAddr % 2 ^ 8) [regAddr % 2 ^ 8] :: s.wire.log)
    = [raw / 256, raw % 256]

/-- The device search of `begin` succeeds in state `s`: the probe of `I2C_ADDR` is acknowledged
and the configuration register read after the reset equals `INA_DEFAULT_CONFIG`. -/
def found (I2C_ADDR : Nat) (s : Sys) : Prop :=
  (Wire.endTransmission (Wire.beginTransmission (I2C_ADDR % 2 ^ 8) s.wire)).1 = 0 ∧
  (inaReadWord INA_CONFIG_REG (I2C_ADDR % 2 ^ 8)
    (inaWriteWord INA_CONFIG_REG INA_RESET_DEVICE (I2C_ADDR % 2 ^ 8)
      { s with wire := (Wire.endTransmission
          (Wire.beginTransmission (I2C_ADDR % 2 ^ 8) s.wire)).2 })).1 = (INA_DEFAULT_CONFIG : Int)

/-- A register write as seen on the bus: a transmission of a register address followed by
two data bytes, read as (device address, register, big-endian word). -/
def regWrite : BusEvent → Option (Nat × Nat × Nat)
  | BusEvent.transmit a [r, hi, lo] => some (a, r, hi * 256 + lo)
  | _ => none

/-- The register writes of a bus log, newest first. -/
def regWrites (log : List BusEvent) : List (Nat × Nat × Nat) := log.filterMap regWrite

/-- The eight hardware averaging levels, by index. -/
def tiers : List Nat := [1, 4, 16, 64, 128, 256, 512, 1024]

/-- Spec wording of the tier selection: the index of the largest tier that does not exceed
the requested count `n`; index 0 when no tier does (`n = 0`). -/
def largestTierIndex (n : Nat) : Nat :=
  ((List.range tiers.length).filter (fun j => decide (tiers.getD j 0 ≤ n))).foldl max 0

/-- A bus on which no transmission is acknowledged (status 2: NACK on address). -/
def deadWire : TwoWire :=
  { txAddress := 0, txBuffer := [], rxBuffer := [], log := [],
    endStatus := fun _ => 2,
    respond := fun _ => [] }

/-- The configuration word most recently written to the device at address `a`, if any. -/
def lastConfigWrite (a : Nat) (log : List BusEvent) : Option Nat :=
  ((regWrites log).find? (fun w => decide (w.1 = a ∧ w.2.1 = INA_CONFIG_REG))).map
    (fun w => w.2.2)

/-- Content of the configuration register of the device at `a` after the writes of the log,
for a device that keeps what is written to it and returns to `INA_DEFAULT_CONFIG` when the
written word has the reset bit (bit 15, `INA_RESET_DEVICE`) set. -/
def deviceConfig (a : Nat) (log : List BusEvent) : Option Nat :=
  (lastConfigWrite a log).map (fun w => if w.testBit 15 then INA_DEFAULT_CONFIG else w)

/-- The device at `a` answers every read of its configuration register with the content
`deviceConfig` gives: nobody else writes the register. -/
def faithful (w : TwoWire) (a : Nat) : Prop :=
  ∀ log c, deviceConfig a log = some c →
    w.respond (BusEvent.request a 2 :: BusEvent.transmit a [INA_CONFIG_REG] :: log)
      = [c / 256, c % 256]

/-- A bus on which every transmission is acknowledged, and the device at `a` answers a read of
its configuration register with `deviceConfig` and every other read with zero. -/
def echoWire (a : Nat) : TwoWire :=
  { txAddress := 0, txBuffer := [], rxBuffer := [], log := [],
    endStatus := fun _ => 0,
    respond := fun log =>
      match log with
      | BusEvent.request _ _ :: BusEvent.transmit _ [r] :: rest =>
        if r = INA_CONFIG_REG then
          match deviceConfig a rest with
          | some c => [c / 256, c % 256]
          | none => [0, 0]
        else [0, 0]
      | _ => [0, 0] }

/-- The operations of the mode invariant, all applied to one unit. -/
inductive Op where
  | mode (m : Nat)
  | averaging (averages : Nat)
  | busConversion (convTime : Nat)
  | shuntConversion (convTime : Nat)
  | resetDevice
  | busRead (fuel : Nat) (waitSwitch : Bool)
  | shuntRead (fuel : Nat) (waitSwitch : Bool)
  deriving DecidableEq, Repr

/-- One operation on unit `u`. -/
def Op.apply (u : Nat) : Op → Sys → Except Fault Sys
  | Op.mode m, s => setMode m u s
  | Op.averaging n, s => setAveraging n u s
  | Op.busConversion k, s => setBusConversion k u s
  | Op.shuntConversion k, s => setShuntConversion k u s
  | Op.resetDevice, s => reset u s
  | Op.busRead fuel w, s => (getBusMilliVolts fuel w u s).map Prod.snd
  | Op.shuntRead fuel w, s => (getShuntMicroVolts fuel w u s).map Prod.snd

/-- A sequence of operations on unit `u`, stopping at the first fault. -/
def runOps (u : Nat) : List Op → Sys → Except Fault Sys
  | [], s => Except.ok s
  | op :: ops, s =>
    match op.apply u s with
    | Except.error e => Except.error e
    | Except.ok t => runOps u ops t

/-- The operations under which the cached mode stays in step with the device: every
operation but `reset`, with `setMode` restricted to the 3-bit modes. -/
def Op.keepsMode : Op → Prop
  | Op.mode m => m ≤ 7
  | Op.resetDevice => False
  | _ => True

/-- The cached mode of unit `u` is in step with the device at `a`: the device answers
configuration reads faithfully, the slot holds its address, and the cached operating mode
equals bits [2:0] of the content of the device's configuration register. -/
def modeInStep (a : Nat) (u : Fin INA_COUNT) (s : Sys) : Prop :=
  faithful s.wire a ∧ (s.ina.inaARRAY u).address % 2 ^ 8 = a ∧
    ∃ c, deviceConfig a s.wire.log = some c ∧ c < 2 ^ 15 ∧
      (s.ina.inaARRAY u).operatingMode = c % 8

/-- A fresh object on the bus `echoWire 0x40`. -/
def echoSys : Sys := { ina := freshINA, wire := echoWire 0x40 }

instance (op : Op) : Decidable op.keepsMode := by
  cases op <;> unfold Op.keepsMode <;> infer_instance

/-- The bus log after `n` further word reads of the mask/enable register of the device at
`a`, newest first. -/
def pollLog (a : Nat) : Nat → List BusEvent → List BusEvent
  | 0, log => log
  | n + 1, log =>
    BusEvent.request a 2 :: BusEvent.transmit a [INA_MASK_ENABLE_REG] :: pollLog a n log

/-- A bus on which every transmission is acknowledged and whose device answers its first `n`
word reads with 0x0000 and every later one with 0x0008 (bit 3 set). -/
def readyAfter (n : Nat) : TwoWire :=
  { txAddress := 0, txBuffer := [], rxBuffer := [], log := [],
    endStatus := fun _ => 0,
    respond := fun log => if log.length < 2 * n + 2 then [0, 0] else [0, 8] }

/-- A registry with two populated slots, unit 0 at address 0x40 and unit 1 at address 0x41,
both in continuous mode, on a bus whose devices answer every read with `word`. -/
def twoSlotSys (word : Nat) : Sys :=
  { ina := { freshINA with inaARRAY := fun v =>
      if v.val = 0 then ⟨0x40, 2048, 24994, 624850, 7⟩
      else if v.val = 1 then ⟨0x41, 2048, 24994, 624850, 7⟩
      else ⟨0, 0, 0, 0, 0⟩ },
    wire := constWire word }

/-- The device at `a` is a plain memory for its configuration register: it answers every
read of the register with the word last written to it. -/
def remembers (w : TwoWire) (a : Nat) : Prop :=
  ∀ log c, lastConfigWrite a log = some c →
    w.respond (BusEvent.request a 2 :: BusEvent.transmit a [INA_CONFIG_REG] :: log)
      = [c / 256, c % 256]

/-- A bus on which every transmission is acknowledged, and the device at `a` answers a read of
its configuration register with the word last written to it and every other read with
zero. -/
def memoryWire (a : Nat) (log0 : List BusEvent) : TwoWire :=
  { txAddress := 0, txBuffer := [], rxBuffer := [], log := log0,
    endStatus := fun _ => 0,
    respond := fun log =>
      match log with
      | BusEvent.request _ _ :: BusEvent.transmit _ [r] :: rest =>
        if r = INA_CONFIG_REG then
          match lastConfigWrite a rest with
          | some c => [c / 256, c % 256]
          | none => [0, 0]
        else [0, 0]
      | _ => [0, 0] }

/-- The bit position of the configuration field a setter updates. -/
def Op.field : Op → Option Nat
  | Op.mode _ => some 0
  | Op.averaging _ => some 9
  | Op.busConversion _ => some 6
  | Op.shuntConversion _ => some 3
  | _ => none

/-- The 3-bit value a setter puts into its field (modes taken in 0..7). -/
def Op.value : Op → Nat
  | Op.mode m => m
  | Op.averaging n => largestTierIndex (n % 2 ^ 16)
  | Op.busConversion k => min (k % 2 ^ 8) 7
  | Op.shuntConversion k => min (k % 2 ^ 8) 7
  | _ => 0

/-- The public operations of the class that take a unit, with their other arguments. -/
inductive Call where
  | setup (MAXmilliAmps CurrentSenseR I2C_ADDR : Nat)
  | busVolts (fuel : Nat) (waitSwitch : Bool)
  | shuntVolts (fuel : Nat) (waitSwitch : Bool)
  | microAmps
  | microWatts
  | resetUnit
  | mode (m : Nat)
  | averaging (averages : Nat)
  | busTime (convTime : Nat)
  | shuntTime (convTime : Nat)
  | wait (fuel : Nat)
  | alertPin (alertState : Bool)
  deriving DecidableEq, Repr

/-- One public operation on unit `u`, keeping the state it leaves. -/
def Call.apply (u : Nat) : Call → Sys → Except Fault Sys
  | Call.setup M R a, s => begin M R u a s
  | Call.busVolts fuel w, s => (getBusMilliVolts fuel w u s).map Prod.snd
  | Call.shuntVolts fuel w, s => (getShuntMicroVolts fuel w u s).map Prod.snd
  | Call.microAmps, s => (getBusMicroAmps u s).map Prod.snd
  | Call.microWatts, s => (getBusMicroWatts u s).map Prod.snd
  | Call.resetUnit, s => reset u s
  | Call.mode m, s => setMode m u s
  | Call.averaging n, s => setAveraging n u s
  | Call.busTime k, s => setBusConversion k u s
  | Call.shuntTime k, s => setShuntConversion k u s
  | Call.wait fuel, s => waitForConversion fuel u s
  | Call.alertPin b, s => setAlertPinOnConversion b u s

/-- A registry whose slot 0 is registered at 0x40, on the bus `memoryWire 0x40` whose log
already holds a write of 0xFFFF to the configuration register. -/
def memorySys : Sys :=
  { ina := (slotSys ⟨0x40, 2048, 24994, 624850, 7⟩ 0).ina,
    wire := memoryWire 0x40 [BusEvent.transmit 0x40 [INA_CONFIG_REG, 0xFF, 0xFF]] }

instance (s : Sys) (deviceAddr regAddr raw : Nat) : Decidable (delivers s deviceAddr regAddr raw) := by
  unfold delivers
  infer_instance

instance (I2C_ADDR : Nat) (s : Sys) : Decidable (found I2C_ADDR s) := by
  unfold found
  infer_instance

/-! ## Machine-integer and bus lemmas -/

theorem bits16_natCast (n : Nat) : bits16 (n : Int) = n % 2 ^ 16 := by
  unfold bits16
  have h : ((n : Int) % 2 ^ 16) = ((n % 2 ^ 16 : Nat) : Int) := by push_cast; rfl
  rw [h, Int.toNat_ofNat]

theorem bits16_i16 (x : Int) : bits16 (i16 x) = bits16 x := by
  unfold bits16 i16
  congr 1
  omega

theorem i16_of_small (x : Int) (h1 : -(2 ^ 15) ≤ x) (h2 : x < 2 ^ 15) : i16 x = x := by
  unfold i16
  omega

theorem i32_of_small (x : Int) (h1 : -(2 ^ 31) ≤ x) (h2 : x < 2 ^ 31) : i32 x = x := by
  unfold i32
  omega

theorem i64_of_small (x : Int) (h1 : -(2 ^ 63) ≤ x) (h2 : x < 2 ^ 63) : i64 x = x := by
  unfold i64
  omega

theorem i16_bounds (x : Int) : -(2 ^ 15) ≤ i16 x ∧ i16 x < 2 ^ 15 := by
  unfold i16
  omega

theorem i16_bits16 (r : Int) (h1 : -(2 ^ 15) ≤ r) (h2 : r < 2 ^ 15) :
    i16 ((bits16 r : Nat) : Int) = r := by
  unfold bits16
  rw [Int.toNat_of_nonneg (Int.emod_nonneg r (by norm_num))]
  unfold i16
  omega

theorem bits16_lt (x : Int) : bits16 x < 2 ^ 16 := by
  unfold bits16
  have h := Int.emod_lt_of_pos x (by norm_num : (0 : Int) < 2 ^ 16)
  have h0 := Int.emod_nonneg x (by norm_num : (2 ^ 16 : Int) ≠ 0)
  omega

/-- Truncating division by a non-negative divisor, in terms of floor division. -/
theorem tdiv_cases (x d : Int) (hd : 0 ≤ d) :
    Int.tdiv x d = if 0 ≤ x then x / d else -((-x) / d) := by
  split_ifs with h
  · exact Int.tdiv_eq_ediv h hd
  · have h1 : 0 ≤ -x := by omega
    have h2 : x = -(-x) := by omega
    conv_lhs => rw [h2]
    rw [Int.neg_tdiv, Int.tdiv_eq_ediv h1 hd]

theorem mask_low4 (m : Nat) : 0b00001111 &&& (m % 2 ^ 8) = m &&& 0x0F := by
  rw [Nat.land_comm]
  have h1 : m % 2 ^ 8 &&& 15 = m % 2 ^ 8 % 2 ^ 4 := Nat.and_pow_two_sub_one_eq_mod (m % 2 ^ 8) 4
  have h2 : m &&& 15 = m % 2 ^ 4 := Nat.and_pow_two_sub_one_eq_mod m 4
  rw [h1, h2]
  omega

theorem word_assemble (raw : Nat) (h : raw < 2 ^ 16) :
    ((raw / 256 % 2 ^ 16) <<< 8) % 2 ^ 16 ||| raw % 256 % 2 ^ 16 = raw := by
  have h1 : raw / 256 < 256 := by omega
  have h2 : raw / 256 % 2 ^ 16 = raw / 256 := Nat.mod_eq_of_lt (by omega)
  have h3 : raw % 256 % 2 ^ 16 = raw % 256 := Nat.mod_eq_of_lt (by omega)
  have h4 : (raw / 256) <<< 8 % 2 ^ 16 = 2 ^ 8 * (raw / 256) := by
    rw [Nat.shiftLeft_eq, Nat.mod_eq_of_lt (by omega)]
    omega
  rw [h2, h3, h4, ← Nat.mul_add_lt_is_or (by omega)]
  omega

theorem unit_index (u : Fin INA_COUNT) (h : u.val % 2 ^ 8 < INA_COUNT) :
    (⟨u.val % 2 ^ 8, h⟩ : Fin INA_COUNT) = u := by
  apply Fin.ext
  have hu : u.val < 3 := u.isLt
  show u.val % 2 ^ 8 = u.val
  omega

theorem unit_lt (u : Fin INA_COUNT) : u.val % 2 ^ 8 < INA_COUNT := by
  have hu : u.val < 3 := u.isLt
  show u.val % 2 ^ 8 < 3
  omega

/-- What a word read returns when the device answers with the bytes of `raw`. -/
theorem inaReadWord_of_delivers (s : Sys) (regAddr deviceAddr raw : Nat) (h : raw < 2 ^ 16)
    (hd : delivers s deviceAddr regAddr raw) :
    (inaReadWord regAddr deviceAddr s).1 = i16 raw := by
  unfold delivers at hd
  have h1 : raw / 256 % 2 ^ 8 = raw / 256 := Nat.mod_eq_of_lt (by omega)
  have h2 : raw % 256 % 2 ^ 8 = raw % 256 := Nat.mod_eq_of_lt (by omega)
  simp only [inaReadWord, Wire.write, Wire.beginTransmission, Wire.endTransmission,
    Wire.requestFrom, Nat.mod_mod, List.nil_append, Nat.mod_eq_of_lt (show 2 < 2 ^ 8 by norm_num),
    hd, List.take, List.map, Wire.read, bits16_natCast, h1, h2]
  rw [word_assemble raw h]

theorem inaReadWord_inaARRAY (s : Sys) (regAddr deviceAddr : Nat) :
    (inaReadWord regAddr deviceAddr s).2.ina.inaARRAY = s.ina.inaARRAY := rfl

theorem inaWriteWord_inaARRAY (s : Sys) (regAddr regData deviceAddr : Nat) :
    (inaWriteWord regAddr regData deviceAddr s).ina.inaARRAY = s.ina.inaARRAY := rfl

theorem inaWriteWord_log (s : Sys) (regAddr regData deviceAddr : Nat) :
    (inaWriteWord regAddr regData deviceAddr s).wire.log =
      BusEvent.transmit (deviceAddr % 2 ^ 8)
        [regAddr % 2 ^ 8, (regData % 2 ^ 16) >>> 8 % 2 ^ 8, regData % 2 ^ 8] :: s.wire.log := by
  simp only [inaWriteWord, Wire.write, Wire.beginTransmission, Wire.endTransmission,
    Nat.mod_mod, List.nil_append, List.cons_append]
  have h : regData % 2 ^ 16 % 2 ^ 8 = regData % 2 ^ 8 := by omega
  rw [h]

/-! ## `begin` -/

/-- The outcome of `begin` when the device is found: the slot as the code computes it (all
conversions shown), the other slots untouched, and the calibration write as the last bus
transaction. -/
theorem begin_of_found (M R : Nat) (u : Fin INA_COUNT) (a : Nat) (s : Sys) (hf : found a s)
    (hd : (M % 2 ^ 8 * 1000000 % 2 ^ 64 / 32767 % 2 ^ 32 * (R % 2 ^ 32) % 2 ^ 64) / 100000 ≠ 0) :
    ∃ s', begin M R u.val a s = Except.ok s' ∧
      s'.ina.inaARRAY u =
        { address := a % 2 ^ 8,
          calibration := 51200000 /
            ((M % 2 ^ 8 * 1000000 % 2 ^ 64 / 32767 % 2 ^ 32 * (R % 2 ^ 32) % 2 ^ 64) / 100000)
              % 2 ^ 16,
          current_LSB := M % 2 ^ 8 * 1000000 % 2 ^ 64 / 32767 % 2 ^ 32,
          power_LSB := (M % 2 ^ 8 * 1000000 % 2 ^ 64 / 32767 % 2 ^ 32) * 25 % 2 ^ 32,
          operatingMode := 7 } ∧
      (∀ v, v ≠ u → s'.ina.inaARRAY v = s.ina.inaARRAY v) ∧
      s'.wire.log.head? = some (BusEvent.transmit (a % 2 ^ 8)
        [INA_CALIBRATION_REG,
         (51200000 /
            ((M % 2 ^ 8 * 1000000 % 2 ^ 64 / 32767 % 2 ^ 32 * (R % 2 ^ 32) % 2 ^ 64) / 100000)
              % 2 ^ 16) / 256,
         (51200000 /
            ((M % 2 ^ 8 * 1000000 % 2 ^ 64 / 32767 % 2 ^ 32 * (R % 2 ^ 32) % 2 ^ 64) / 100000)
              % 2 ^ 16) % 256]) := by
  obtain ⟨hp, hr⟩ := hf
  have hu := unit_lt u
  unfold begin
  simp only [hp, hr, if_true, dif_pos hu, if_neg hd, unit_index u hu]
  refine ⟨_, rfl, ?_, ?_, ?_⟩
  · rw [inaWriteWord_inaARRAY]
    simp only [Function.update_same]
  · intro v hv
    rw [inaWriteWord_inaARRAY]
    simp only [Function.update_noteq hv]
    rfl
  · rw [inaWriteWord_log]
    simp only [List.head?_cons, Nat.mod_mod, INA_CALIBRATION_REG, Nat.shiftRight_eq_div_pow]
    have hc : 51200000 /
        ((M % 2 ^ 8 * 1000000 % 2 ^ 64 / 32767 % 2 ^ 32 * (R % 2 ^ 32) % 2 ^ 64) / 100000)
          % 2 ^ 16 < 2 ^ 16 := Nat.mod_lt _ (by norm_num)
    generalize 51200000 /
        ((M % 2 ^ 8 * 1000000 % 2 ^ 64 / 32767 % 2 ^ 32 * (R % 2 ^ 32) % 2 ^ 64) / 100000)
          % 2 ^ 16 = cal at hc ⊢
    have h1 : cal / 2 ^ 8 % 2 ^ 8 = cal / 256 := by omega
    have h2 : cal % 2 ^ 8 = cal % 256 := by omega
    have h3 : 5 % 2 ^ 8 = 5 := by norm_num
    rw [h1, h2, h3]

/-- Inside the 8-bit range of `MAXmilliAmps` and the 32-bit range of `CurrentSenseR`, the
unsigned arithmetic of `begin` does not wrap before the calibration is narrowed. -/
theorem begin_arith (M R : Nat) (hM : M ≤ 255) (hR : R < 2 ^ 32) :
    M % 2 ^ 8 * 1000000 % 2 ^ 64 / 32767 % 2 ^ 32 = M * 1000000 / 32767 ∧
    (M * 1000000 / 32767 * (R % 2 ^ 32) % 2 ^ 64) = M * 1000000 / 32767 * R ∧
    (M * 1000000 / 32767) * 25 % 2 ^ 32 = (M * 1000000 / 32767) * 25 := by
  have h1 : M * 1000000 / 32767 ≤ 7782 := by omega
  have h2 : M * 1000000 / 32767 * R ≤ 7782 * 2 ^ 32 := Nat.mul_le_mul h1 (le_of_lt hR)
  have ha : M % 2 ^ 8 = M := Nat.mod_eq_of_lt (by omega)
  have hb : M * 1000000 % 2 ^ 64 = M * 1000000 := Nat.mod_eq_of_lt (by omega)
  have hc : M * 1000000 / 32767 % 2 ^ 32 = M * 1000000 / 32767 := Nat.mod_eq_of_lt (by omega)
  refine ⟨by rw [ha, hb, hc], ?_, Nat.mod_eq_of_lt (by omega)⟩
  rw [Nat.mod_eq_of_lt hR]
  apply Nat.mod_eq_of_lt
  have h3 : 7782 * 2 ^ 32 < 2 ^ 64 := by norm_num
  omega

/-- C1 (evaluation at a failing input): with `max_milliamps = 300`, inside the claimed range
[1, 800], a successful `begin` stores `current_LSB = 1342` and `power_LSB = 33550`, the values
for `300 % 256 = 44`, whereas `floor(300 * 1000000 / 32767) = 9155`: the `uint8_t` parameter
of the definition drops the high bits that the `uint32_t` declaration of the header keeps. -/
theorem begin_current_LSB_at_300 :
    found INA_DEFAULT (freshSys INA_DEFAULT_CONFIG) ∧
    (begin 300 100000 0 INA_DEFAULT (freshSys INA_DEFAULT_CONFIG)).map
        (fun s => ((s.ina.inaARRAY 0).current_LSB, (s.ina.inaARRAY 0).power_LSB))
      = Except.ok (1342, 33550) ∧
    300 * 1000000 / 32767 = 9155 ∧ 44 * 1000000 / 32767 = 1342 :=
  ⟨by decide, rfl, by decide, by decide⟩

/-- C2 (counterexample): `max_milliamps = 4`, `shunt = 1000` lie in the claimed ranges and give
the non-zero divisor 1, yet the calibration stored by a successful `begin` is 16384, not
`floor(51200000 / 1) = 51200000`: the quotient is narrowed to the 16-bit field. -/
theorem begin_calibration_not_quotient :
    found INA_DEFAULT (freshSys INA_DEFAULT_CONFIG) ∧
    4 * 1000000 / 32767 * 1000 / 100000 ≠ 0 ∧
    (begin 4 1000 0 INA_DEFAULT (freshSys INA_DEFAULT_CONFIG)).map
        (fun s => (s.ina.inaARRAY 0).calibration) = Except.ok 16384 ∧
    (begin 4 1000 0 INA_DEFAULT (freshSys INA_DEFAULT_CONFIG)).map
        (fun s => (s.ina.inaARRAY 0).calibration)
      ≠ Except.ok (51200000 / (4 * 1000000 / 32767 * 1000 / 100000)) := by
  refine ⟨by decide, by decide, rfl, ?_⟩
  have h : (begin 4 1000 0 INA_DEFAULT (freshSys INA_DEFAULT_CONFIG)).map
      (fun s => (s.ina.inaARRAY 0).calibration) = Except.ok 16384 := rfl
  rw [h]
  intro hc
  injection hc with hc
  revert hc
  decide

/-- C2 (amended): for `max_milliamps` in [1, 255] and a shunt in [1000, 200000] micro-ohms
with non-zero divisor `d = floor(current_lsb * shunt / 100000)`, a successful `begin` stores
in the slot, and writes as its last bus transaction to the calibration register (big-endian),
the value `floor(51200000 / d) mod 2^16`, with
`current_lsb = floor(max_milliamps * 1000000 / 32767)`. -/
theorem begin_calibration_stored_and_written (M R : Nat) (u : Fin INA_COUNT) (a : Nat) (s : Sys)
    (hM : 1 ≤ M ∧ M ≤ 255) (hR : 1000 ≤ R ∧ R ≤ 200000) (hf : found a s)
    (hd : M * 1000000 / 32767 * R / 100000 ≠ 0) :
    (begin M R u.val a s).map (fun t => ((t.ina.inaARRAY u).calibration, t.wire.log.head?)) =
      Except.ok
        (51200000 / (M * 1000000 / 32767 * R / 100000) % 2 ^ 16,
         some (BusEvent.transmit (a % 2 ^ 8)
          [INA_CALIBRATION_REG,
           51200000 / (M * 1000000 / 32767 * R / 100000) % 2 ^ 16 / 256,
           51200000 / (M * 1000000 / 32767 * R / 100000) % 2 ^ 16 % 256])) := by
  obtain ⟨e1, e2, _⟩ := begin_arith M R hM.2 (by omega)
  have hd' : (M % 2 ^ 8 * 1000000 % 2 ^ 64 / 32767 % 2 ^ 32 * (R % 2 ^ 32) % 2 ^ 64) / 100000 ≠ 0 := by
    rw [e1, e2]; exact hd
  obtain ⟨t, ht, hslot, _, hlog⟩ := begin_of_found M R u a s hf hd'
  rw [e1, e2] at hslot hlog
  rw [ht]
  simp only [Except.map, hslot, hlog]

/-- C2: the amended statement instantiated at `max_milliamps = 100`,
`shunt = 100000`, unit 0, on a bus whose device answers the default configuration. -/
theorem begin_calibration_stored_and_written_witness :
    found INA_DEFAULT (freshSys INA_DEFAULT_CONFIG) ∧
    100 * 1000000 / 32767 * 100000 / 100000 ≠ 0 ∧
    (begin 100 100000 (0 : Fin INA_COUNT).val INA_DEFAULT (freshSys INA_DEFAULT_CONFIG)).map
        (fun t => ((t.ina.inaARRAY 0).calibration, t.wire.log.head?)) =
      Except.ok
        (51200000 / (100 * 1000000 / 32767 * 100000 / 100000) % 2 ^ 16,
         some (BusEvent.transmit (INA_DEFAULT % 2 ^ 8)
          [INA_CALIBRATION_REG,
           51200000 / (100 * 1000000 / 32767 * 100000 / 100000) % 2 ^ 16 / 256,
           51200000 / (100 * 1000000 / 32767 * 100000 / 100000) % 2 ^ 16 % 256])) :=
  ⟨by decide, by decide,
   begin_calibration_stored_and_written 100 100000 0 INA_DEFAULT (freshSys INA_DEFAULT_CONFIG)
     (by decide) (by decide) (by decide) (by decide)⟩

/-- C3 (evaluation at the failing input): a successful `begin` with the reference arguments
`max_milliamps = 819`, `shunt = 100000` (the default arguments of the header) stores
`current_LSB = 1556`, `calibration = 32904`, `power_LSB = 38900`, the values for
`819 % 256 = 51`, not the claimed 24994, 2048 and 624850. -/
theorem begin_reference_case :
    found INA_DEFAULT (freshSys INA_DEFAULT_CONFIG) ∧
    (begin 819 100000 0 INA_DEFAULT (freshSys INA_DEFAULT_CONFIG)).map
        (fun s => ((s.ina.inaARRAY 0).current_LSB, (s.ina.inaARRAY 0).calibration,
          (s.ina.inaARRAY 0).power_LSB))
      = Except.ok (1556, 32904, 38900) ∧
    (819 * 1000000 / 32767, 51200000 / (819 * 1000000 / 32767 * 100000 / 100000),
      25 * (819 * 1000000 / 32767)) = (24994, 2048, 624850) :=
  ⟨by decide, rfl, by decide⟩

/-- C4 (counterexample): `max_milliamps = 1`, `shunt = 1000` are positive and give the
non-zero `current_lsb = 30`, yet the divisor `floor(30 * 1000 / 100000)` is 0 and `begin`
divides by zero. -/
theorem begin_divides_by_zero :
    found INA_DEFAULT (freshSys INA_DEFAULT_CONFIG) ∧
    1 * 1000000 / 32767 = 30 ∧ 1 * 1000000 / 32767 * 1000 / 100000 = 0 ∧
    begin 1 1000 0 INA_DEFAULT (freshSys INA_DEFAULT_CONFIG)
      = Except.error Fault.divideByZero :=
  ⟨by decide, by decide, by decide, rfl⟩

/-- C4 (amended): for `max_milliamps` in [1, 255] and a shunt in [1, 2^32 - 1] micro-ohms with
`current_lsb * shunt ≥ 100000`, the divisor `floor(current_lsb * shunt / 100000)` that `begin`
uses is non-zero, and `begin` on a valid unit returns without dividing by zero, whatever the
bus does. -/
theorem begin_divisor_nonzero (M R : Nat) (u : Fin INA_COUNT) (a : Nat) (s : Sys)
    (hM : 1 ≤ M ∧ M ≤ 255) (hR : 1 ≤ R ∧ R < 2 ^ 32)
    (hprod : 100000 ≤ M * 1000000 / 32767 * R) :
    M * 1000000 / 32767 * R / 100000 ≠ 0 ∧ ∃ t, begin M R u.val a s = Except.ok t := by
  have hd : M * 1000000 / 32767 * R / 100000 ≠ 0 := by
    have := Nat.div_pos hprod (by norm_num : 0 < 100000)
    omega
  refine ⟨hd, ?_⟩
  obtain ⟨e1, e2, _⟩ := begin_arith M R hM.2 hR.2
  by_cases hf : found a s
  · have hd' : (M % 2 ^ 8 * 1000000 % 2 ^ 64 / 32767 % 2 ^ 32 * (R % 2 ^ 32) % 2 ^ 64)
        / 100000 ≠ 0 := by
      rw [e1, e2]; exact hd
    obtain ⟨t, ht, _⟩ := begin_of_found M R u a s hf hd'
    exact ⟨t, ht⟩
  · unfold found at hf
    unfold begin
    by_cases hp : (Wire.endTransmission (Wire.beginTransmission (a % 2 ^ 8) s.wire)).1 = 0
    · have hr := fun h => hf ⟨hp, h⟩
      simp only [hp, if_true, if_neg hr]
      exact ⟨_, rfl⟩
    · simp only [if_neg hp]
      exact ⟨_, rfl⟩

/-- C4: the amended statement instantiated at `max_milliamps = 1`, `shunt = 3334`, unit 0. -/
theorem begin_divisor_nonzero_witness :
    100000 ≤ 1 * 1000000 / 32767 * 3334 ∧
    (1 * 1000000 / 32767 * 3334 / 100000 ≠ 0 ∧
      ∃ t, begin 1 3334 (0 : Fin INA_COUNT).val INA_DEFAULT (freshSys INA_DEFAULT_CONFIG)
        = Except.ok t) :=
  ⟨by decide,
   begin_divisor_nonzero 1 3334 0 INA_DEFAULT (freshSys INA_DEFAULT_CONFIG)
     (by decide) (by decide) (by decide)⟩

/-! ## The scaling conversions -/

/-- C5 (counterexample): the 16-bit register value `raw = 52429` scales to
`floor(52429 * 125 / 100) = 65536`, but `getBusMilliVolts` returns 0: the `uint16_t` result
wraps. -/
theorem getBusMilliVolts_wraps :
    delivers (freshSys 52429) ((freshSys 52429).ina.inaARRAY 0).address INA_BUS_VOLT_REG 52429 ∧
    (getBusMilliVolts 0 false 0 (freshSys 52429)).map Prod.fst = Except.ok 0 ∧
    52429 * 125 / 100 = 65536 :=
  ⟨by decide, rfl, by decide⟩

/-- C5 (amended): for every 16-bit bus-voltage register value `raw`, `getBusMilliVolts` (after
the optional wait has returned) returns `floor(raw * 125 / 100)` exactly when `raw ≤ 52428`
(so 1 gives 1 and 0 gives 0), and `floor(raw * 125 / 100) - 65536` when `raw ≥ 52429`. -/
theorem getBusMilliVolts_value (fuel : Nat) (waitSwitch : Bool) (u : Fin INA_COUNT)
    (s s1 : Sys) (raw : Nat) (hw : waitIf fuel waitSwitch s = Except.ok s1)
    (hraw : raw < 2 ^ 16)
    (hd : delivers s1 (s1.ina.inaARRAY u).address INA_BUS_VOLT_REG raw) :
    (getBusMilliVolts fuel waitSwitch u.val s).map Prod.fst =
      Except.ok (if raw ≤ 52428 then raw * 125 / 100 else raw * 125 / 100 - 65536) := by
  have hu := unit_lt u
  simp only [getBusMilliVolts, hw, dif_pos hu, unit_index u hu, Except.map]
  rw [inaReadWord_of_delivers _ _ _ _ hraw hd, bits16_i16, bits16_natCast]
  congr 1
  have e1 : raw % 2 ^ 16 = raw := Nat.mod_eq_of_lt hraw
  have e2 : raw * INA_BUS_VOLT_LSB % 2 ^ 32 = raw * 125 := by
    unfold INA_BUS_VOLT_LSB
    exact Nat.mod_eq_of_lt (by omega)
  rw [e1, e2]
  clear hd hw hu e1 e2
  split_ifs <;> omega

/-- C5: the amended statement instantiated at `raw = 1`, unit 0, without wait. -/
theorem getBusMilliVolts_value_witness :
    delivers (freshSys 1) ((freshSys 1).ina.inaARRAY 0).address INA_BUS_VOLT_REG 1 ∧
    (getBusMilliVolts 0 false (0 : Fin INA_COUNT).val (freshSys 1)).map Prod.fst =
      Except.ok (if 1 ≤ 52428 then 1 * 125 / 100 else 1 * 125 / 100 - 65536) :=
  ⟨by decide,
   getBusMilliVolts_value 0 false 0 (freshSys 1) (freshSys 1) 1 rfl (by decide) (by decide)⟩

/-- C6 (counterexample): the signed register value `raw = 13108` scales to
`13108 * 25 / 10 = 32770`, but `getShuntMicroVolts` returns -32766: the `int16_t` result
wraps. -/
theorem getShuntMicroVolts_wraps :
    delivers (freshSys 13108) ((freshSys 13108).ina.inaARRAY 0).address INA_SHUNT_VOLT_REG
      (bits16 13108) ∧
    (getShuntMicroVolts 0 false 0 (freshSys 13108)).map Prod.fst = Except.ok (-32766) ∧
    Int.tdiv (13108 * 25) 10 = 32770 :=
  ⟨by decide, rfl, by decide⟩

/-- C6 (amended): for every signed 16-bit shunt-voltage register value `raw`,
`getShuntMicroVolts` (after the optional wait has returned) returns `raw * 25 / 10`, truncated
toward zero, exactly when `-13107 ≤ raw ≤ 13107` (so 4 gives 10); below that range it returns
that value plus 65536 and above it that value minus 65536. -/
theorem getShuntMicroVolts_value (fuel : Nat) (waitSwitch : Bool) (u : Fin INA_COUNT)
    (s s1 : Sys) (raw : Int) (hw : waitIf fuel waitSwitch s = Except.ok s1)
    (hraw : -(2 ^ 15) ≤ raw ∧ raw < 2 ^ 15)
    (hd : delivers s1 (s1.ina.inaARRAY u).address INA_SHUNT_VOLT_REG (bits16 raw)) :
    (getShuntMicroVolts fuel waitSwitch u.val s).map Prod.fst =
      Except.ok (if raw < -13107 then Int.tdiv (raw * 25) 10 + 65536
        else if raw ≤ 13107 then Int.tdiv (raw * 25) 10
        else Int.tdiv (raw * 25) 10 - 65536) := by
  have hu := unit_lt u
  simp only [getShuntMicroVolts, hw, dif_pos hu, unit_index u hu, Except.map]
  rw [inaReadWord_of_delivers _ _ _ _ (bits16_lt raw) hd, i16_bits16 raw hraw.1 hraw.2]
  congr 1
  have e1 : i32 raw = raw := i32_of_small raw (by omega) (by omega)
  have e2 : i32 (raw * ((INA_SHUNT_VOLT_LSB : Nat) : Int)) = raw * 25 := by
    have : ((INA_SHUNT_VOLT_LSB : Nat) : Int) = 25 := rfl
    rw [this]
    exact i32_of_small _ (by omega) (by omega)
  rw [e1, e2, tdiv_cases (raw * 25) 10 (by norm_num)]
  unfold i16 i32
  split_ifs <;> omega

/-- C6: the amended statement instantiated at `raw = 4`, unit 0, without wait. -/
theorem getShuntMicroVolts_value_witness :
    delivers (freshSys 4) ((freshSys 4).ina.inaARRAY 0).address INA_SHUNT_VOLT_REG (bits16 4) ∧
    (getShuntMicroVolts 0 false (0 : Fin INA_COUNT).val (freshSys 4)).map Prod.fst =
      Except.ok (if (4 : Int) < -13107 then Int.tdiv (4 * 25) 10 + 65536
        else if (4 : Int) ≤ 13107 then Int.tdiv (4 * 25) 10
        else Int.tdiv (4 * 25) 10 - 65536) :=
  ⟨by decide,
   getShuntMicroVolts_value 0 false 0 (freshSys 4) (freshSys 4) 4 rfl (by decide) (by decide)⟩

/-- The 64-bit product and the 32-bit quotient of the current and power conversions stay in
range for a signed 16-bit factor and an LSB below 2500000. -/
theorem scale_in_range (raw : Int) (lsb : Nat) (hraw : -(2 ^ 15) ≤ raw ∧ raw < 2 ^ 15)
    (hlsb : lsb < 2500000) :
    i32 (Int.tdiv (i64 (i64 (i32 raw) * (lsb : Int))) 1000) = Int.tdiv (raw * (lsb : Int)) 1000 ∧
    (-(2 ^ 63) ≤ raw * (lsb : Int) ∧ raw * (lsb : Int) < 2 ^ 63) ∧
    (-(2 ^ 31) ≤ Int.tdiv (raw * (lsb : Int)) 1000 ∧
      Int.tdiv (raw * (lsb : Int)) 1000 < 2 ^ 31) := by
  have h0 : (0 : Int) ≤ (lsb : Int) := Int.ofNat_nonneg lsb
  have hl : (lsb : Int) < 2500000 := by exact_mod_cast hlsb
  have hP1 : raw * (lsb : Int) ≤ 32767 * (lsb : Int) :=
    Int.mul_le_mul_of_nonneg_right (by omega) h0
  have hP2 : -32768 * (lsb : Int) ≤ raw * (lsb : Int) :=
    Int.mul_le_mul_of_nonneg_right (by omega) h0
  have e1 : i32 raw = raw := i32_of_small raw (by omega) (by omega)
  have e2 : i64 raw = raw := i64_of_small raw (by omega) (by omega)
  rw [e1, e2]
  generalize raw * (lsb : Int) = P at hP1 hP2 ⊢
  have e3 : i64 P = P := i64_of_small P (by omega) (by omega)
  rw [e3, tdiv_cases P 1000 (by norm_num)]
  refine ⟨?_, ⟨by omega, by omega⟩, ?_⟩
  · apply i32_of_small <;> split_ifs <;> omega
  · split_ifs <;> omega

/-- C7: for a slot whose `current_LSB` is below 100000 and every signed 16-bit current
register value `raw`, `getBusMicroAmps` returns `raw * current_LSB / 1000` truncated toward
zero, with that slot's own `current_LSB`; the product fits in 64 bits and the result in 32
bits. -/
theorem getBusMicroAmps_value (u : Fin INA_COUNT) (s : Sys) (raw : Int)
    (hlsb : (s.ina.inaARRAY u).current_LSB < 100000)
    (hraw : -(2 ^ 15) ≤ raw ∧ raw < 2 ^ 15)
    (hd : delivers s (s.ina.inaARRAY u).address INA_CURRENT_REGISTER (bits16 raw)) :
    (getBusMicroAmps u.val s).map Prod.fst =
      Except.ok (Int.tdiv (raw * ((s.ina.inaARRAY u).current_LSB : Int)) 1000) ∧
    (-(2 ^ 63) ≤ raw * ((s.ina.inaARRAY u).current_LSB : Int) ∧
      raw * ((s.ina.inaARRAY u).current_LSB : Int) < 2 ^ 63) ∧
    (-(2 ^ 31) ≤ Int.tdiv (raw * ((s.ina.inaARRAY u).current_LSB : Int)) 1000 ∧
      Int.tdiv (raw * ((s.ina.inaARRAY u).current_LSB : Int)) 1000 < 2 ^ 31) := by
  have hu := unit_lt u
  obtain ⟨h1, h2, h3⟩ := scale_in_range raw (s.ina.inaARRAY u).current_LSB hraw (by omega)
  refine ⟨?_, h2, h3⟩
  simp only [getBusMicroAmps, dif_pos hu, unit_index u hu, Except.map]
  rw [inaReadWord_of_delivers _ _ _ _ (bits16_lt raw) hd, i16_bits16 raw hraw.1 hraw.2, h1]

/-- C7: the statement instantiated at `raw = -32768` and `current_LSB = 24994`. -/
theorem getBusMicroAmps_value_witness :
    delivers (slotSys ⟨0x40, 2048, 24994, 624850, 7⟩ 0x8000)
      ((slotSys ⟨0x40, 2048, 24994, 624850, 7⟩ 0x8000).ina.inaARRAY 0).address
      INA_CURRENT_REGISTER (bits16 (-32768)) ∧
    (getBusMicroAmps (0 : Fin INA_COUNT).val
        (slotSys ⟨0x40, 2048, 24994, 624850, 7⟩ 0x8000)).map Prod.fst =
      Except.ok (Int.tdiv ((-32768) *
        (((slotSys ⟨0x40, 2048, 24994, 624850, 7⟩ 0x8000).ina.inaARRAY 0).current_LSB : Int))
        1000) :=
  ⟨by decide,
   (getBusMicroAmps_value 0 (slotSys ⟨0x40, 2048, 24994, 624850, 7⟩ 0x8000) (-32768)
     (by decide) (by decide) (by decide)).1⟩

/-- C8: for a slot whose `power_LSB` is `25 * current_LSB` with `current_LSB` below 100000 and
every value `raw` that the word read of the power register delivers, `getBusMicroWatts`
returns `raw * power_LSB / 1000` truncated toward zero, with that slot's own `power_LSB`; the
product fits in 64 bits and the result in 32 bits. -/
theorem getBusMicroWatts_value (u : Fin INA_COUNT) (s : Sys) (raw : Int)
    (hp : (s.ina.inaARRAY u).power_LSB = 25 * (s.ina.inaARRAY u).current_LSB)
    (hlsb : (s.ina.inaARRAY u).current_LSB < 100000)
    (hread : (inaReadWord INA_POWER_REGISTER (s.ina.inaARRAY u).address s).1 = raw) :
    (getBusMicroWatts u.val s).map Prod.fst =
      Except.ok (Int.tdiv (raw * ((s.ina.inaARRAY u).power_LSB : Int)) 1000) ∧
    (-(2 ^ 15) ≤ raw ∧ raw < 2 ^ 15) ∧
    (-(2 ^ 63) ≤ raw * ((s.ina.inaARRAY u).power_LSB : Int) ∧
      raw * ((s.ina.inaARRAY u).power_LSB : Int) < 2 ^ 63) ∧
    (-(2 ^ 31) ≤ Int.tdiv (raw * ((s.ina.inaARRAY u).power_LSB : Int)) 1000 ∧
      Int.tdiv (raw * ((s.ina.inaARRAY u).power_LSB : Int)) 1000 < 2 ^ 31) := by
  have hu := unit_lt u
  have hraw : -(2 ^ 15) ≤ raw ∧ raw < 2 ^ 15 := by
    rw [← hread]
    exact i16_bounds _
  obtain ⟨h1, h2, h3⟩ := scale_in_range raw (s.ina.inaARRAY u).power_LSB hraw (by omega)
  refine ⟨?_, hraw, h2, h3⟩
  simp only [getBusMicroWatts, dif_pos hu, unit_index u hu, Except.map]
  rw [hread, h1]

/-- C8: the statement instantiated at `raw = -32768` and `power_LSB = 624850`. -/
theorem getBusMicroWatts_value_witness :
    (inaReadWord INA_POWER_REGISTER
      ((slotSys ⟨0x40, 2048, 24994, 624850, 7⟩ 0x8000).ina.inaARRAY 0).address
      (slotSys ⟨0x40, 2048, 24994, 624850, 7⟩ 0x8000)).1 = -32768 ∧
    (getBusMicroWatts (0 : Fin INA_COUNT).val
        (slotSys ⟨0x40, 2048, 24994, 624850, 7⟩ 0x8000)).map Prod.fst =
      Except.ok (Int.tdiv ((-32768) *
        (((slotSys ⟨0x40, 2048, 24994, 624850, 7⟩ 0x8000).ina.inaARRAY 0).power_LSB : Int))
        1000) :=
  ⟨by decide,
   (getBusMicroWatts_value 0 (slotSys ⟨0x40, 2048, 24994, 624850, 7⟩ 0x8000) (-32768)
     (by decide) (by decide) (by decide)).1⟩

/-! ## `setMode` -/

/-- C9: for every mode value `m` and every unit of the array, `setMode m` returns and leaves
`m & 0x0F` as the cached operating mode of that unit, which is what the operating-mode getter
then returns. -/
theorem setMode_caches_low_four_bits (m : Nat) (u : Fin INA_COUNT) (s : Sys) :
    (setMode m u.val s).map (fun t => (t.ina.inaARRAY u).operatingMode)
      = Except.ok (m &&& 0x0F) ∧
    (setMode m u.val s).bind (getOperatingMode u.val) = Except.ok (m &&& 0x0F) := by
  have hu := unit_lt u
  constructor
  · simp only [setMode, dif_pos hu, unit_index u hu, Except.map, inaWriteWord_inaARRAY,
      Function.update_same, mask_low4]
  · simp only [setMode, getOperatingMode, dif_pos hu, unit_index u hu, Except.bind,
      inaWriteWord_inaARRAY, Function.update_same, mask_low4]

/-- C10 (evaluation at the failing input): with the configuration register holding `0x4127`
(bit 3 clear), `setMode 0x0B` writes `0x412B` to the configuration register: bit 3, which lies
outside the mode field `INA_CONFIG_MODE_MASK = 0x0007` and inside `INA_SHUNT_TIME_MASK`, is
changed, so bits [15:3] of the written word differ from those of the register. -/
theorem setMode_changes_bit_3 :
    delivers (slotSys ⟨0x40, 2048, 24994, 624850, 7⟩ 0x4127) 0x40 INA_CONFIG_REG 0x4127 ∧
    (setMode 0x0B 0 (slotSys ⟨0x40, 2048, 24994, 624850, 7⟩ 0x4127)).map
        (fun t => t.wire.log.head?)
      = Except.ok (some (BusEvent.transmit 0x40 [INA_CONFIG_REG, 0x41, 0x2B])) ∧
    0x412B >>> 3 ≠ 0x4127 >>> 3 ∧
    0x412B &&& INA_SHUNT_TIME_MASK ≠ 0x4127 &&& INA_SHUNT_TIME_MASK :=
  ⟨by decide, rfl, by decide, by decide⟩

/-! ## The bus log -/

theorem read_log (w : TwoWire) : (Wire.read w).2.log = w.log := by
  unfold Wire.read
  split <;> rfl

theorem read_respond (w : TwoWire) : (Wire.read w).2.respond = w.respond := by
  unfold Wire.read
  split <;> rfl

theorem read_endStatus (w : TwoWire) : (Wire.read w).2.endStatus = w.endStatus := by
  unfold Wire.read
  split <;> rfl

theorem inaReadWord_log (s : Sys) (regAddr deviceAddr : Nat) :
    (inaReadWord regAddr deviceAddr s).2.wire.log =
      BusEvent.request (deviceAddr % 2 ^ 8) 2 ::
        BusEvent.transmit (deviceAddr % 2 ^ 8) [regAddr % 2 ^ 8] :: s.wire.log := by
  simp only [inaReadWord, read_log]
  simp only [Wire.requestFrom, Wire.endTransmission, Wire.write, Wire.beginTransmission,
    Nat.mod_mod, List.nil_append, Nat.mod_eq_of_lt (show 2 < 2 ^ 8 by norm_num)]

theorem inaReadWord_respond (s : Sys) (regAddr deviceAddr : Nat) :
    (inaReadWord regAddr deviceAddr s).2.wire.respond = s.wire.respond := by
  simp only [inaReadWord, read_respond]
  rfl

theorem inaWriteWord_respond (s : Sys) (regAddr regData deviceAddr : Nat) :
    (inaWriteWord regAddr regData deviceAddr s).wire.respond = s.wire.respond := rfl

theorem regWrites_read (s : Sys) (regAddr deviceAddr : Nat) :
    regWrites (inaReadWord regAddr deviceAddr s).2.wire.log = regWrites s.wire.log := by
  rw [inaReadWord_log]
  simp [regWrites, regWrite]

theorem regWrites_write (s : Sys) (regAddr regData deviceAddr : Nat) (h : regData < 2 ^ 16) :
    regWrites (inaWriteWord regAddr regData deviceAddr s).wire.log =
      (deviceAddr % 2 ^ 8, regAddr % 2 ^ 8, regData) :: regWrites s.wire.log := by
  rw [inaWriteWord_log]
  have e : (regData % 2 ^ 16) >>> 8 % 2 ^ 8 * 256 + regData % 2 ^ 8 = regData := by
    rw [Nat.shiftRight_eq_div_pow, Nat.mod_eq_of_lt h]
    omega
  simp only [regWrites, List.filterMap_cons, regWrite, e]

/-! ## Bit fields of a 16-bit register -/

theorem testBit_notMask (m j : Nat) :
    (notMask m).testBit j = (decide (j < 16) && !m.testBit j) := by
  unfold notMask
  have h : m % 2 ^ 16 < 2 ^ 16 := Nat.mod_lt _ (by norm_num)
  have e : 2 ^ 16 - 1 - m % 2 ^ 16 = 2 ^ 16 - (m % 2 ^ 16 + 1) := by omega
  rw [e, Nat.testBit_two_pow_sub_succ h, Nat.testBit_mod_two_pow]
  cases decide (j < 16) <;> simp

theorem testBit_of_lt16 (c j : Nat) (hc : c < 2 ^ 16) (hj : 16 ≤ j) : c.testBit j = false :=
  Nat.testBit_lt_two_pow (lt_of_lt_of_le hc (Nat.pow_le_pow_right (by norm_num) hj))

theorem testBit_of_lt8 (v j : Nat) (hv : v < 8) (hj : 3 ≤ j) : v.testBit j = false := by
  have e : (8 : Nat) = 2 ^ 3 := rfl
  rw [e] at hv
  exact Nat.testBit_lt_two_pow (lt_of_lt_of_le hv (Nat.pow_le_pow_right (by norm_num) hj))

/-- Bits of a masked register with a value ORed in, as the setters compute it. -/
theorem rmw_testBit (c m x j : Nat) (hc : c < 2 ^ 16) :
    ((c &&& notMask m) ||| x).testBit j = ((c.testBit j && !m.testBit j) || x.testBit j) := by
  rw [Nat.testBit_or, Nat.testBit_and, testBit_notMask]
  by_cases hj : j < 16
  · simp [hj]
  · simp [testBit_of_lt16 c j hc (by omega)]

theorem testBit_field (v p j : Nat) (hv : v < 8) :
    (v <<< p).testBit j = (decide (p ≤ j ∧ j < p + 3) && v.testBit (j - p)) := by
  rw [Nat.testBit_shiftLeft]
  by_cases h1 : p ≤ j
  · by_cases h2 : j < p + 3
    · simp [h1, h2]
    · simp [h1, h2, testBit_of_lt8 v (j - p) hv (by omega)]
  · simp [h1]

/-- Replacing a 3-bit field at position `p`: the new word bit by bit. -/
theorem field_write_testBit (c v p j : Nat) (hc : c < 2 ^ 16) (hv : v < 8) :
    ((c &&& notMask (7 <<< p)) ||| (v <<< p)).testBit j =
      if p ≤ j ∧ j < p + 3 then v.testBit (j - p) else c.testBit j := by
  rw [rmw_testBit c _ _ j hc, testBit_field v p j hv, testBit_field 7 p j (by norm_num)]
  by_cases h : p ≤ j ∧ j < p + 3
  · have h7 : (7 : Nat).testBit (j - p) = true := by
      have e : (7 : Nat) = 2 ^ 3 - 1 := rfl
      rw [e, Nat.testBit_two_pow_sub_one]
      simp only [decide_eq_true_eq]
      omega
    simp [h, h7]
  · simp [h]

theorem field_write_value (c v p : Nat) (hc : c < 2 ^ 16) (hv : v < 8) :
    (((c &&& notMask (7 <<< p)) ||| (v <<< p)) >>> p) % 8 = v := by
  apply Nat.eq_of_testBit_eq
  intro j
  have e : (8 : Nat) = 2 ^ 3 := rfl
  rw [e, Nat.testBit_mod_two_pow, Nat.testBit_shiftRight, field_write_testBit c v p _ hc hv]
  by_cases hj : j < 3
  · have : p ≤ p + j ∧ p + j < p + 3 := by omega
    simp [hj, this]
  · simp [hj, testBit_of_lt8 v j hv (by omega)]

theorem field_write_frame (c v p j : Nat) (hc : c < 2 ^ 16) (hv : v < 8)
    (hj : j < p ∨ p + 3 ≤ j) :
    ((c &&& notMask (7 <<< p)) ||| (v <<< p)).testBit j = c.testBit j := by
  rw [field_write_testBit c v p j hc hv, if_neg (by omega)]

theorem field_shift_lt (v p n : Nat) (hv : v < 8) (hp : p + 3 ≤ n) : v <<< p < 2 ^ n := by
  rw [Nat.shiftLeft_eq]
  have h1 : v * 2 ^ p < 2 ^ 3 * 2 ^ p :=
    Nat.mul_lt_mul_of_pos_right (by simpa using hv) (Nat.pow_pos (by norm_num))
  rw [← Nat.pow_add] at h1
  exact lt_of_lt_of_le h1 (Nat.pow_le_pow_right (by norm_num) (by omega))

theorem field_write_lt (c v p n : Nat) (hc : c < 2 ^ n) (hv : v < 8) (hp : p + 3 ≤ n) :
    (c &&& notMask (7 <<< p)) ||| (v <<< p) < 2 ^ n :=
  Nat.or_lt_two_pow (lt_of_le_of_lt Nat.and_le_left hc) (field_shift_lt v p n hv hp)

theorem bits16_of_delivers (s : Sys) (regAddr deviceAddr c : Nat) (hc : c < 2 ^ 16)
    (hd : delivers s deviceAddr regAddr c) :
    bits16 (inaReadWord regAddr deviceAddr s).1 = c := by
  rw [inaReadWord_of_delivers s regAddr deviceAddr c hc hd, bits16_i16, bits16_natCast]
  exact Nat.mod_eq_of_lt hc

/-- A read-modify-write of the 3-bit field at position `p` of the configuration register, as
the three field setters do it: one write to the configuration register, carrying the new
field and the other bits of the content `c` read, and no change to the records. -/
theorem rmw_config (s : Sys) (a c v p : Nat) (hc : c < 2 ^ 16) (hv : v < 8) (hp : p + 3 ≤ 16)
    (hd : delivers s a INA_CONFIG_REG c) :
    regWrites (inaWriteWord INA_CONFIG_REG
        ((bits16 (inaReadWord INA_CONFIG_REG a s).1 &&& notMask (7 <<< p)) ||| (v <<< p)) a
        (inaReadWord INA_CONFIG_REG a s).2).wire.log =
      (a % 2 ^ 8, INA_CONFIG_REG, (c &&& notMask (7 <<< p)) ||| (v <<< p))
        :: regWrites s.wire.log := by
  rw [bits16_of_delivers s _ _ c hc hd,
    regWrites_write _ _ _ _ (field_write_lt c v p 16 hc hv hp), regWrites_read]
  rfl

/-! ## The field setters -/

/-- The threshold chain of `setAveraging` computes the spec's tier index. -/
theorem averageIndex_eq (n : Nat) :
    (if n ≥ 1024 then 7
      else if n ≥ 512 then 6
      else if n ≥ 256 then 5
      else if n ≥ 128 then 4
      else if n ≥ 64 then 3
      else if n ≥ 16 then 2
      else if n ≥ 4 then 1
      else 0) = largestTierIndex n := by
  have hr : List.range tiers.length = [0, 1, 2, 3, 4, 5, 6, 7] := by decide
  unfold largestTierIndex
  rw [hr]
  split_ifs <;>
    simp (disch := omega) only [List.filter, tiers, List.getD_cons_zero, List.getD_cons_succ,
      decide_eq_true, decide_eq_false, List.foldl] <;> first | rfl | (split <;> rfl)

theorem largestTierIndex_lt (n : Nat) : largestTierIndex n < 8 := by
  rw [← averageIndex_eq]
  split_ifs <;> omega

/-- The outcome of `setAveraging` on a valid unit whose device delivers the configuration
content `c`. -/
theorem setAveraging_writes (n : Nat) (u : Fin INA_COUNT) (s : Sys) (c : Nat)
    (hc : c < 2 ^ 16) (hd : delivers s (s.ina.inaARRAY u).address INA_CONFIG_REG c) :
    ∃ t, setAveraging n u.val s = Except.ok t ∧
      regWrites t.wire.log =
        ((s.ina.inaARRAY u).address % 2 ^ 8, INA_CONFIG_REG,
          (c &&& notMask (7 <<< 9)) ||| (largestTierIndex (n % 2 ^ 16) <<< 9))
          :: regWrites s.wire.log ∧
      t.ina.inaARRAY = s.ina.inaARRAY := by
  have hu := unit_lt u
  have hm : INA_CONFIG_AVG_MASK = 7 <<< 9 := by decide
  have ht : setAveraging n u.val s = Except.ok (inaWriteWord INA_CONFIG_REG
      ((bits16 (inaReadWord INA_CONFIG_REG (s.ina.inaARRAY u).address s).1
        &&& notMask (7 <<< 9)) ||| (largestTierIndex (n % 2 ^ 16) <<< 9))
      (s.ina.inaARRAY u).address
      (inaReadWord INA_CONFIG_REG (s.ina.inaARRAY u).address s).2) := by
    simp only [setAveraging, dif_pos hu, unit_index u hu, averageIndex_eq, hm,
      inaReadWord_inaARRAY]
  exact ⟨_, ht, rmw_config s _ c _ 9 hc (largestTierIndex_lt _) (by norm_num) hd, rfl⟩

/-- C12: for every 16-bit requested count `n`, the index that `setAveraging n` writes into
bits [11:9] of the configuration word is the index of the largest tier of
(1, 4, 16, 64, 128, 256, 512, 1024) not exceeding `n`, and 0 for `n = 0`; so 500 gives 5,
1 gives 0 and 2000 gives 7. -/
theorem setAveraging_selects_tier (n : Nat) (u : Fin INA_COUNT) (s : Sys) (c : Nat)
    (hn : n < 2 ^ 16) (hc : c < 2 ^ 16)
    (hd : delivers s (s.ina.inaARRAY u).address INA_CONFIG_REG c) :
    (∃ t w, setAveraging n u.val s = Except.ok t ∧
      regWrites t.wire.log =
        ((s.ina.inaARRAY u).address % 2 ^ 8, INA_CONFIG_REG, w) :: regWrites s.wire.log ∧
      (w >>> 9) % 8 = largestTierIndex n) ∧
    (n = 0 → largestTierIndex n = 0) ∧
    largestTierIndex 500 = 5 ∧ largestTierIndex 1 = 0 ∧ largestTierIndex 2000 = 7 := by
  obtain ⟨t, ht, hw, _⟩ := setAveraging_writes n u s c hc hd
  rw [Nat.mod_eq_of_lt hn] at hw
  refine ⟨⟨t, _, ht, hw, field_write_value c _ 9 hc (largestTierIndex_lt n)⟩, ?_,
    by decide, by decide, by decide⟩
  intro h0
  rw [h0]
  decide

/-- C12: the statement instantiated at `n = 500`, unit 0 and configuration content 0x4127. -/
theorem setAveraging_selects_tier_witness :
    delivers (slotSys ⟨0x40, 2048, 24994, 624850, 7⟩ 0x4127)
      ((slotSys ⟨0x40, 2048, 24994, 624850, 7⟩ 0x4127).ina.inaARRAY 0).address
      INA_CONFIG_REG 0x4127 ∧
    ∃ t w, setAveraging 500 (0 : Fin INA_COUNT).val
        (slotSys ⟨0x40, 2048, 24994, 624850, 7⟩ 0x4127) = Except.ok t ∧
      regWrites t.wire.log =
        (((slotSys ⟨0x40, 2048, 24994, 624850, 7⟩ 0x4127).ina.inaARRAY 0).address % 2 ^ 8,
          INA_CONFIG_REG, w)
          :: regWrites (slotSys ⟨0x40, 2048, 24994, 624850, 7⟩ 0x4127).wire.log ∧
      (w >>> 9) % 8 = largestTierIndex 500 :=
  ⟨by decide,
   (setAveraging_selects_tier 500 0 (slotSys ⟨0x40, 2048, 24994, 624850, 7⟩ 0x4127) 0x4127
     (by decide) (by decide) (by decide)).1⟩

/-- C13: for every 16-bit configuration content `c` and every requested count `n`,
`setAveraging n` writes one word to the configuration register; that word holds the selected
index in bits [11:9] and the bits of `c` everywhere else, and no record of the registry is
changed. -/
theorem setAveraging_frame (n : Nat) (u : Fin INA_COUNT) (s : Sys) (c : Nat)
    (hc : c < 2 ^ 16) (hd : delivers s (s.ina.inaARRAY u).address INA_CONFIG_REG c) :
    ∃ t w, setAveraging n u.val s = Except.ok t ∧
      regWrites t.wire.log =
        ((s.ina.inaARRAY u).address % 2 ^ 8, INA_CONFIG_REG, w) :: regWrites s.wire.log ∧
      (w >>> 9) % 8 = largestTierIndex (n % 2 ^ 16) ∧
      (∀ j, j < 9 ∨ 12 ≤ j → w.testBit j = c.testBit j) ∧
      t.ina.inaARRAY = s.ina.inaARRAY := by
  obtain ⟨t, ht, hw, ha⟩ := setAveraging_writes n u s c hc hd
  exact ⟨t, _, ht, hw, field_write_value c _ 9 hc (largestTierIndex_lt _),
    fun j hj => field_write_frame c _ 9 j hc (largestTierIndex_lt _) hj, ha⟩

/-- C13: the statement instantiated at `n = 2000`, unit 0 and configuration content 0xFFFF. -/
theorem setAveraging_frame_witness :
    delivers (slotSys ⟨0x40, 2048, 24994, 624850, 7⟩ 0xFFFF)
      ((slotSys ⟨0x40, 2048, 24994, 624850, 7⟩ 0xFFFF).ina.inaARRAY 0).address
      INA_CONFIG_REG 0xFFFF ∧
    ∃ t w, setAveraging 2000 (0 : Fin INA_COUNT).val
        (slotSys ⟨0x40, 2048, 24994, 624850, 7⟩ 0xFFFF) = Except.ok t ∧
      regWrites t.wire.log =
        (((slotSys ⟨0x40, 2048, 24994, 624850, 7⟩ 0xFFFF).ina.inaARRAY 0).address % 2 ^ 8,
          INA_CONFIG_REG, w)
          :: regWrites (slotSys ⟨0x40, 2048, 24994, 624850, 7⟩ 0xFFFF).wire.log ∧
      (w >>> 9) % 8 = largestTierIndex (2000 % 2 ^ 16) ∧
      (∀ j, j < 9 ∨ 12 ≤ j → w.testBit j = (0xFFFF : Nat).testBit j) ∧
      t.ina.inaARRAY = (slotSys ⟨0x40, 2048, 24994, 624850, 7⟩ 0xFFFF).ina.inaARRAY :=
  ⟨by decide,
   setAveraging_frame 2000 0 (slotSys ⟨0x40, 2048, 24994, 624850, 7⟩ 0xFFFF) 0xFFFF
     (by decide) (by decide)⟩

theorem clamp_eq (x : Nat) : (if x > 7 then 7 else x) = min x 7 := by
  split_ifs <;> omega

/-- The outcome of `setBusConversion` on a valid unit whose device delivers the configuration
content `c`. -/
theorem setBusConversion_writes (k : Nat) (u : Fin INA_COUNT) (s : Sys) (c : Nat)
    (hc : c < 2 ^ 16) (hd : delivers s (s.ina.inaARRAY u).address INA_CONFIG_REG c) :
    ∃ t, setBusConversion k u.val s = Except.ok t ∧
      regWrites t.wire.log =
        ((s.ina.inaARRAY u).address % 2 ^ 8, INA_CONFIG_REG,
          (c &&& notMask (7 <<< 6)) ||| (min (k % 2 ^ 8) 7 <<< 6))
          :: regWrites s.wire.log ∧
      t.ina.inaARRAY = s.ina.inaARRAY := by
  have hu := unit_lt u
  have hm : INA_BUS_TIME_MASK = 7 <<< 6 := by decide
  have ht : setBusConversion k u.val s = Except.ok (inaWriteWord INA_CONFIG_REG
      ((bits16 (inaReadWord INA_CONFIG_REG (s.ina.inaARRAY u).address s).1
        &&& notMask (7 <<< 6)) ||| (min (k % 2 ^ 8) 7 <<< 6))
      (s.ina.inaARRAY u).address
      (inaReadWord INA_CONFIG_REG (s.ina.inaARRAY u).address s).2) := by
    simp only [setBusConversion, dif_pos hu, unit_index u hu, clamp_eq, hm, inaReadWord_inaARRAY]
  exact ⟨_, ht, rmw_config s _ c _ 6 hc (by omega) (by norm_num) hd, rfl⟩

/-- C14: for every 16-bit configuration content `c` and every 8-bit code `k`,
`setBusConversion k` writes one word to the configuration register: `c` with bits [8:6]
replaced by `min k 7` (codes above 7 are clamped to 7, codes 0..7 are kept) and every bit
outside [8:6] preserved. -/
theorem setBusConversion_clamps_and_preserves (k : Nat) (u : Fin INA_COUNT) (s : Sys) (c : Nat)
    (hk : k < 2 ^ 8) (hc : c < 2 ^ 16)
    (hd : delivers s (s.ina.inaARRAY u).address INA_CONFIG_REG c) :
    ∃ t w, setBusConversion k u.val s = Except.ok t ∧
      regWrites t.wire.log =
        ((s.ina.inaARRAY u).address % 2 ^ 8, INA_CONFIG_REG, w) :: regWrites s.wire.log ∧
      (w >>> 6) % 8 = min k 7 ∧
      (∀ j, j < 6 ∨ 9 ≤ j → w.testBit j = c.testBit j) := by
  obtain ⟨t, ht, hw, _⟩ := setBusConversion_writes k u s c hc hd
  rw [Nat.mod_eq_of_lt hk] at hw
  exact ⟨t, _, ht, hw, field_write_value c _ 6 hc (by omega),
    fun j hj => field_write_frame c _ 6 j hc (by omega) hj⟩

/-- C14: the statement instantiated at code 9, unit 0 and configuration content
0x4127. -/
theorem setBusConversion_clamps_and_preserves_witness :
    delivers (slotSys ⟨0x40, 2048, 24994, 624850, 7⟩ 0x4127)
      ((slotSys ⟨0x40, 2048, 24994, 624850, 7⟩ 0x4127).ina.inaARRAY 0).address
      INA_CONFIG_REG 0x4127 ∧
    ∃ t w, setBusConversion 9 (0 : Fin INA_COUNT).val
        (slotSys ⟨0x40, 2048, 24994, 624850, 7⟩ 0x4127) = Except.ok t ∧
      regWrites t.wire.log =
        (((slotSys ⟨0x40, 2048, 24994, 624850, 7⟩ 0x4127).ina.inaARRAY 0).address % 2 ^ 8,
          INA_CONFIG_REG, w)
          :: regWrites (slotSys ⟨0x40, 2048, 24994, 624850, 7⟩ 0x4127).wire.log ∧
      (w >>> 6) % 8 = min 9 7 ∧
      (∀ j, j < 6 ∨ 9 ≤ j → w.testBit j = (0x4127 : Nat).testBit j) :=
  ⟨by decide,
   setBusConversion_clamps_and_preserves 9 0 (slotSys ⟨0x40, 2048, 24994, 624850, 7⟩ 0x4127) 0x4127
     (by decide) (by decide) (by decide)⟩

/-- The outcome of `setShuntConversion` on a valid unit whose device delivers the configuration
content `c`. -/
theorem setShuntConversion_writes (k : Nat) (u : Fin INA_COUNT) (s : Sys) (c : Nat)
    (hc : c < 2 ^ 16) (hd : delivers s (s.ina.inaARRAY u).address INA_CONFIG_REG c) :
    ∃ t, setShuntConversion k u.val s = Except.ok t ∧
      regWrites t.wire.log =
        ((s.ina.inaARRAY u).address % 2 ^ 8, INA_CONFIG_REG,
          (c &&& notMask (7 <<< 3)) ||| (min (k % 2 ^ 8) 7 <<< 3))
          :: regWrites s.wire.log ∧
      t.ina.inaARRAY = s.ina.inaARRAY := by
  have hu := unit_lt u
  have hm : INA_SHUNT_TIME_MASK = 7 <<< 3 := by decide
  have ht : setShuntConversion k u.val s = Except.ok (inaWriteWord INA_CONFIG_REG
      ((bits16 (inaReadWord INA_CONFIG_REG (s.ina.inaARRAY u).address s).1
        &&& notMask (7 <<< 3)) ||| (min (k % 2 ^ 8) 7 <<< 3))
      (s.ina.inaARRAY u).address
      (inaReadWord INA_CONFIG_REG (s.ina.inaARRAY u).address s).2) := by
    simp only [setShuntConversion, dif_pos hu, unit_index u hu, clamp_eq, hm, inaReadWord_inaARRAY]
  exact ⟨_, ht, rmw_config s _ c _ 3 hc (by omega) (by norm_num) hd, rfl⟩

/-- C15: for every 16-bit configuration content `c` and every 8-bit code `k`,
`setShuntConversion k` writes one word to the configuration register: `c` with bits [5:3]
replaced by `min k 7` (codes above 7 are clamped to 7, codes 0..7 are kept) and every bit
outside [5:3], the mode bits [2:0] and the bus-time bits [8:6] included, preserved. -/
theorem setShuntConversion_clamps_and_preserves (k : Nat) (u : Fin INA_COUNT) (s : Sys) (c : Nat)
    (hk : k < 2 ^ 8) (hc : c < 2 ^ 16)
    (hd : delivers s (s.ina.inaARRAY u).address INA_CONFIG_REG c) :
    ∃ t w, setShuntConversion k u.val s = Except.ok t ∧
      regWrites t.wire.log =
        ((s.ina.inaARRAY u).address % 2 ^ 8, INA_CONFIG_REG, w) :: regWrites s.wire.log ∧
      (w >>> 3) % 8 = min k 7 ∧
      (∀ j, j < 3 ∨ 6 ≤ j → w.testBit j = c.testBit j) := by
  obtain ⟨t, ht, hw, _⟩ := setShuntConversion_writes k u s c hc hd
  rw [Nat.mod_eq_of_lt hk] at hw
  exact ⟨t, _, ht, hw, field_write_value c _ 3 hc (by omega),
    fun j hj => field_write_frame c _ 3 j hc (by omega) hj⟩

/-- C15: the statement instantiated at code 200, unit 0 and configuration content
0xFFFF. -/
theorem setShuntConversion_clamps_and_preserves_witness :
    delivers (slotSys ⟨0x40, 2048, 24994, 624850, 7⟩ 0xFFFF)
      ((slotSys ⟨0x40, 2048, 24994, 624850, 7⟩ 0xFFFF).ina.inaARRAY 0).address
      INA_CONFIG_REG 0xFFFF ∧
    ∃ t w, setShuntConversion 200 (0 : Fin INA_COUNT).val
        (slotSys ⟨0x40, 2048, 24994, 624850, 7⟩ 0xFFFF) = Except.ok t ∧
      regWrites t.wire.log =
        (((slotSys ⟨0x40, 2048, 24994, 624850, 7⟩ 0xFFFF).ina.inaARRAY 0).address % 2 ^ 8,
          INA_CONFIG_REG, w)
          :: regWrites (slotSys ⟨0x40, 2048, 24994, 624850, 7⟩ 0xFFFF).wire.log ∧
      (w >>> 3) % 8 = min 200 7 ∧
      (∀ j, j < 3 ∨ 6 ≤ j → w.testBit j = (0xFFFF : Nat).testBit j) :=
  ⟨by decide,
   setShuntConversion_clamps_and_preserves 200 0 (slotSys ⟨0x40, 2048, 24994, 624850, 7⟩ 0xFFFF) 0xFFFF
     (by decide) (by decide) (by decide)⟩

/-! ## `setAlertPinOnConversion` -/

theorem testBit_bit10 (j : Nat) : ((1 : Nat) <<< 10).testBit j = decide (j = 10) := by
  have e : ((1 : Nat) <<< 10) = 2 ^ 10 := by decide
  rw [e, Nat.testBit_two_pow]
  by_cases h : j = 10
  · simp [h]
  · have h2 : ¬ (10 = j) := fun h3 => h h3.symm
    simp [h, h2]

theorem testBit_1024 (j : Nat) : Nat.testBit 1024 j = decide (j = 10) :=
  testBit_bit10 j

/-- C16: for every 16-bit mask/enable content `r`, `setAlertPinOnConversion` writes one word to
the mask/enable register: `r` with bit 10 set when the argument is true and cleared when it is
false, the 15 other bits being those of `r`; the configuration register is not written. -/
theorem setAlertPinOnConversion_frame (alertState : Bool) (u : Fin INA_COUNT) (s : Sys)
    (r : Nat) (hr : r < 2 ^ 16)
    (hd : delivers s (s.ina.inaARRAY u).address INA_MASK_ENABLE_REG r) :
    ∃ t w, setAlertPinOnConversion alertState u.val s = Except.ok t ∧
      regWrites t.wire.log =
        ((s.ina.inaARRAY u).address % 2 ^ 8, INA_MASK_ENABLE_REG, w)
          :: regWrites s.wire.log ∧
      w.testBit 10 = alertState ∧
      (∀ j, j ≠ 10 → w.testBit j = r.testBit j) ∧
      (regWrites t.wire.log).filter (fun x => decide (x.2.1 = INA_CONFIG_REG)) =
        (regWrites s.wire.log).filter (fun x => decide (x.2.1 = INA_CONFIG_REG)) := by
  have hu := unit_lt u
  have hb := bits16_of_delivers s _ _ r hr hd
  have hlt : (if (!alertState) = true then r &&& notMask (1 <<< 10) else r ||| 1 <<< 10)
      < 2 ^ 16 := by
    split_ifs
    · exact lt_of_le_of_lt Nat.and_le_left hr
    · exact Nat.or_lt_two_pow hr (by decide)
  have hw : regWrites (inaWriteWord INA_MASK_ENABLE_REG
      (if (!alertState) = true then r &&& notMask (1 <<< 10) else r ||| 1 <<< 10)
      (s.ina.inaARRAY u).address
      (inaReadWord INA_MASK_ENABLE_REG (s.ina.inaARRAY u).address s).2).wire.log =
      ((s.ina.inaARRAY u).address % 2 ^ 8, INA_MASK_ENABLE_REG,
        (if (!alertState) = true then r &&& notMask (1 <<< 10) else r ||| 1 <<< 10))
        :: regWrites s.wire.log := by
    rw [regWrites_write _ _ _ _ hlt, regWrites_read]
    rfl
  refine ⟨_, _, by simp only [setAlertPinOnConversion, dif_pos hu, unit_index u hu, hb,
    inaReadWord_inaARRAY], hw, ?_, ?_, ?_⟩
  · cases alertState
    · simp [Nat.testBit_and, testBit_notMask, testBit_bit10, testBit_1024]
    · simp [Nat.testBit_or, testBit_bit10, testBit_1024]
  · intro j hj
    cases alertState
    · simp only [Bool.not_false, if_true, Nat.testBit_and, testBit_notMask, testBit_bit10]
      by_cases h16 : j < 16
      · simp [hj, h16]
      · simp [testBit_of_lt16 r j hr (by omega)]
    · simp [Nat.testBit_or, testBit_bit10, testBit_1024, hj]
  · rw [hw]
    simp [List.filter_cons, INA_MASK_ENABLE_REG, INA_CONFIG_REG]

/-- C16: the statement instantiated at `alertState = true`, unit 0 and mask/enable content
0x0008. -/
theorem setAlertPinOnConversion_frame_witness :
    delivers (slotSys ⟨0x40, 2048, 24994, 624850, 7⟩ 0x0008)
      ((slotSys ⟨0x40, 2048, 24994, 624850, 7⟩ 0x0008).ina.inaARRAY 0).address
      INA_MASK_ENABLE_REG 0x0008 ∧
    ∃ t w, setAlertPinOnConversion true (0 : Fin INA_COUNT).val
        (slotSys ⟨0x40, 2048, 24994, 624850, 7⟩ 0x0008) = Except.ok t ∧
      regWrites t.wire.log =
        (((slotSys ⟨0x40, 2048, 24994, 624850, 7⟩ 0x0008).ina.inaARRAY 0).address % 2 ^ 8,
          INA_MASK_ENABLE_REG, w)
          :: regWrites (slotSys ⟨0x40, 2048, 24994, 624850, 7⟩ 0x0008).wire.log ∧
      w.testBit 10 = true ∧
      (∀ j, j ≠ 10 → w.testBit j = (0x0008 : Nat).testBit j) ∧
      (regWrites t.wire.log).filter (fun x => decide (x.2.1 = INA_CONFIG_REG)) =
        (regWrites (slotSys ⟨0x40, 2048, 24994, 624850, 7⟩ 0x0008).wire.log).filter
          (fun x => decide (x.2.1 = INA_CONFIG_REG)) :=
  ⟨by decide,
   setAlertPinOnConversion_frame true 0 (slotSys ⟨0x40, 2048, 24994, 624850, 7⟩ 0x0008) 0x0008
     (by decide) (by decide)⟩

/-! ## `begin`: what it writes and when it does nothing -/

/-- The register writes of a `begin` that finds the device: the reset word to the
configuration register, then the computed calibration to the calibration register. -/
theorem begin_found_writes (M R : Nat) (u : Fin INA_COUNT) (a : Nat) (s : Sys) (hf : found a s)
    (hd : (M % 2 ^ 8 * 1000000 % 2 ^ 64 / 32767 % 2 ^ 32 * (R % 2 ^ 32) % 2 ^ 64) / 100000 ≠ 0) :
    ∃ t, begin M R u.val a s = Except.ok t ∧
      regWrites t.wire.log =
        (a % 2 ^ 8, INA_CALIBRATION_REG,
          51200000 /
            ((M % 2 ^ 8 * 1000000 % 2 ^ 64 / 32767 % 2 ^ 32 * (R % 2 ^ 32) % 2 ^ 64) / 100000)
              % 2 ^ 16)
          :: (a % 2 ^ 8, INA_CONFIG_REG, INA_RESET_DEVICE) :: regWrites s.wire.log ∧
      t.wire.respond = s.wire.respond := by
  obtain ⟨hp, hr⟩ := hf
  have hu := unit_lt u
  have hcal : 51200000 /
      ((M % 2 ^ 8 * 1000000 % 2 ^ 64 / 32767 % 2 ^ 32 * (R % 2 ^ 32) % 2 ^ 64) / 100000)
        % 2 ^ 16 < 2 ^ 16 := Nat.mod_lt _ (by norm_num)
  unfold begin
  simp only [hp, hr, if_true, dif_pos hu, if_neg hd, unit_index u hu]
  refine ⟨_, rfl, ?_, ?_⟩
  · rw [regWrites_write _ _ _ _ hcal]
    simp only [regWrites_read, regWrites_write _ _ _ _ (show INA_RESET_DEVICE < 2 ^ 16 by decide),
      Nat.mod_mod]
    simp [Wire.endTransmission, Wire.beginTransmission, regWrites, regWrite,
      INA_CALIBRATION_REG, INA_CONFIG_REG]
  · rw [inaWriteWord_respond]
    simp only [inaReadWord_respond, inaWriteWord_respond]
    rfl

theorem except_ok_inj {ε α : Type} {x y : α} (h : (Except.ok x : Except ε α) = Except.ok y) :
    x = y := by
  injection h

/-- C17 (counterexample): the probe is acknowledged and the configuration register reads
0x4127, yet `begin 2 1000` does not populate the slot: its divisor
`floor(61 * 1000 / 100000)` is 0 and the calibration is a division by zero. -/
theorem begin_found_but_divides_by_zero :
    found INA_DEFAULT (freshSys INA_DEFAULT_CONFIG) ∧
    2 * 1000000 / 32767 = 61 ∧ 61 * 1000 / 100000 = 0 ∧
    begin 2 1000 0 INA_DEFAULT (freshSys INA_DEFAULT_CONFIG)
      = Except.error Fault.divideByZero :=
  ⟨by decide, by decide, by decide, rfl⟩

/-- C17 (amended): when the address probe is acknowledged, the configuration register read
after the reset equals 0x4127 and `begin` does not divide by zero, `begin` returns with slot
`unit` holding `address = addr` (as 8-bit value) and `operatingMode = 0b111`, and its register
writes are the reset of the configuration register followed by one write to the calibration
register (register 5) of `addr` whose value is the calibration stored in the slot. -/
theorem begin_populates_slot (M R : Nat) (u : Fin INA_COUNT) (a : Nat) (s : Sys)
    (hf : found a s) (hz : begin M R u.val a s ≠ Except.error Fault.divideByZero) :
    ∃ t, begin M R u.val a s = Except.ok t ∧
      (t.ina.inaARRAY u).address = a % 2 ^ 8 ∧
      (t.ina.inaARRAY u).operatingMode = 0b111 ∧
      regWrites t.wire.log =
        (a % 2 ^ 8, INA_CALIBRATION_REG, (t.ina.inaARRAY u).calibration)
          :: (a % 2 ^ 8, INA_CONFIG_REG, INA_RESET_DEVICE) :: regWrites s.wire.log := by
  by_cases hd : (M % 2 ^ 8 * 1000000 % 2 ^ 64 / 32767 % 2 ^ 32 * (R % 2 ^ 32) % 2 ^ 64)
      / 100000 = 0
  · exfalso
    apply hz
    obtain ⟨hp, hr⟩ := hf
    have hu := unit_lt u
    unfold begin
    simp only [hp, hr, if_true, dif_pos hu, if_pos hd]
  · obtain ⟨t, ht, hslot, _, _⟩ := begin_of_found M R u a s hf hd
    obtain ⟨t2, ht2, hw, _⟩ := begin_found_writes M R u a s hf hd
    have e : t2 = t := except_ok_inj (ht2.symm.trans ht)
    subst e
    refine ⟨t2, ht, ?_, ?_, ?_⟩
    · rw [hslot]
    · rw [hslot]
    · rw [hw, hslot]

/-- C17: the amended statement instantiated at `max_milliamps = 100`, `shunt = 100000`, unit 0,
address 0x40, on a bus whose device answers the default configuration. -/
theorem begin_populates_slot_witness :
    found INA_DEFAULT (freshSys INA_DEFAULT_CONFIG) ∧
    ∃ t, begin 100 100000 (0 : Fin INA_COUNT).val INA_DEFAULT (freshSys INA_DEFAULT_CONFIG)
        = Except.ok t ∧
      (t.ina.inaARRAY 0).address = INA_DEFAULT % 2 ^ 8 ∧
      (t.ina.inaARRAY 0).operatingMode = 0b111 ∧
      regWrites t.wire.log =
        (INA_DEFAULT % 2 ^ 8, INA_CALIBRATION_REG, (t.ina.inaARRAY 0).calibration)
          :: (INA_DEFAULT % 2 ^ 8, INA_CONFIG_REG, INA_RESET_DEVICE)
          :: regWrites (freshSys INA_DEFAULT_CONFIG).wire.log :=
  ⟨by decide,
   begin_populates_slot 100 100000 0 INA_DEFAULT (freshSys INA_DEFAULT_CONFIG) (by decide)
     (by
       intro h
       have h2 : (begin 100 100000 (0 : Fin INA_COUNT).val INA_DEFAULT
           (freshSys INA_DEFAULT_CONFIG)).toOption.isSome = true := by decide
       rw [h] at h2
       exact absurd h2 (by decide))⟩

/-- C18: if the address probe is not acknowledged, or the configuration register read after
the reset differs from 0x4127, `begin` returns with every record of the registry at its
pre-call value and without a write to the calibration register; when the probe is not
acknowledged it makes no register write at all. -/
theorem begin_not_found (M R UNIT_ID a : Nat) (s : Sys) (hnf : ¬ found a s) :
    ∃ t, begin M R UNIT_ID a s = Except.ok t ∧
      t.ina.inaARRAY = s.ina.inaARRAY ∧
      (regWrites t.wire.log).filter (fun x => decide (x.2.1 = INA_CALIBRATION_REG)) =
        (regWrites s.wire.log).filter (fun x => decide (x.2.1 = INA_CALIBRATION_REG)) ∧
      ((Wire.endTransmission (Wire.beginTransmission (a % 2 ^ 8) s.wire)).1 ≠ 0 →
        regWrites t.wire.log = regWrites s.wire.log) := by
  unfold found at hnf
  unfold begin
  by_cases hp : (Wire.endTransmission (Wire.beginTransmission (a % 2 ^ 8) s.wire)).1 = 0
  · have hr := fun h => hnf ⟨hp, h⟩
    simp only [hp, if_true, if_neg hr]
    refine ⟨_, rfl, rfl, ?_, fun h => absurd rfl h⟩
    simp only [regWrites_read, regWrites_write _ _ _ _ (show INA_RESET_DEVICE < 2 ^ 16 by decide)]
    simp [Wire.endTransmission, Wire.beginTransmission, regWrites, regWrite,
      INA_CALIBRATION_REG, INA_CONFIG_REG]
  · simp only [if_neg hp]
    refine ⟨_, rfl, rfl, ?_, fun _ => ?_⟩ <;>
      simp [Wire.endTransmission, Wire.beginTransmission, regWrites, regWrite]

/-- C18: the statement instantiated on a bus that never acknowledges, with a fresh
registry. -/
theorem begin_not_found_witness :
    ¬ found INA_DEFAULT { ina := freshINA, wire := deadWire } ∧
    ∃ t, begin 819 100000 0 INA_DEFAULT { ina := freshINA, wire := deadWire } = Except.ok t ∧
      t.ina.inaARRAY = freshINA.inaARRAY ∧
      (regWrites t.wire.log).filter (fun x => decide (x.2.1 = INA_CALIBRATION_REG)) =
        (regWrites deadWire.log).filter (fun x => decide (x.2.1 = INA_CALIBRATION_REG)) ∧
      ((Wire.endTransmission (Wire.beginTransmission (INA_DEFAULT % 2 ^ 8) deadWire)).1 ≠ 0 →
        regWrites t.wire.log = regWrites deadWire.log) :=
  ⟨by decide,
   begin_not_found 819 100000 0 INA_DEFAULT { ina := freshINA, wire := deadWire } (by decide)⟩

/-! ## The voltage reads and the re-trigger -/

/-- A wait that returns has only read: records, device behaviour and register writes are as
before. -/
theorem waitForConversion_frame (fuel UNIT_ID : Nat) (s t : Sys)
    (h : waitForConversion fuel UNIT_ID s = Except.ok t) :
    t.ina.inaARRAY = s.ina.inaARRAY ∧ t.wire.respond = s.wire.respond ∧
      regWrites t.wire.log = regWrites s.wire.log := by
  induction fuel generalizing s with
  | zero => simp [waitForConversion] at h
  | succ n ih =>
    unfold waitForConversion at h
    by_cases hu : UNIT_ID % 2 ^ 8 < INA_COUNT
    · simp only [dif_pos hu] at h
      split_ifs at h with hz
      · obtain ⟨h1, h2, h3⟩ := ih _ h
        exact ⟨h1, by rw [h2, inaReadWord_respond], by rw [h3, regWrites_read]⟩
      · have e := except_ok_inj h
        subst e
        exact ⟨rfl, inaReadWord_respond _ _ _, regWrites_read _ _ _⟩
    · simp only [dif_neg hu] at h
      cases h

theorem waitIf_frame (fuel : Nat) (waitSwitch : Bool) (s t : Sys)
    (h : waitIf fuel waitSwitch s = Except.ok t) :
    t.ina.inaARRAY = s.ina.inaARRAY ∧ t.wire.respond = s.wire.respond ∧
      regWrites t.wire.log = regWrites s.wire.log := by
  unfold waitIf at h
  cases waitSwitch
  · have e := except_ok_inj h
    subst e
    exact ⟨rfl, rfl, rfl⟩
  · exact waitForConversion_frame fuel 0 s t h

/-- The bus log after the re-trigger, when the cached mode has bit 2 clear and bit 1 set and
the device delivers the configuration content `c`. -/
theorem retrigger_log_on (slot : inaSTRUCT) (s : Sys) (c : Nat) (hc : c < 2 ^ 16)
    (hm : bitRead slot.operatingMode 2 = 0 ∧ bitRead slot.operatingMode 1 ≠ 0)
    (hd : delivers s slot.address INA_CONFIG_REG c) :
    (retrigger slot s).wire.log =
      BusEvent.transmit (slot.address % 2 ^ 8) [INA_CONFIG_REG, c / 256, c % 256] ::
      BusEvent.request (slot.address % 2 ^ 8) 2 ::
      BusEvent.transmit (slot.address % 2 ^ 8) [INA_CONFIG_REG] :: s.wire.log := by
  unfold retrigger
  rw [if_pos hm]
  simp only [inaWriteWord_log, inaReadWord_log, bits16_of_delivers s _ _ c hc hd]
  have e1 : (c % 2 ^ 16) >>> 8 % 2 ^ 8 = c / 256 := by
    rw [Nat.shiftRight_eq_div_pow, Nat.mod_eq_of_lt hc]
    omega
  have e2 : c % 2 ^ 8 = c % 256 := rfl
  have e3 : INA_CONFIG_REG % 2 ^ 8 = INA_CONFIG_REG := by decide
  rw [e1, e2, e3]

theorem retrigger_off (slot : inaSTRUCT) (s : Sys)
    (hm : ¬ (bitRead slot.operatingMode 2 = 0 ∧ bitRead slot.operatingMode 1 ≠ 0)) :
    retrigger slot s = s := by
  unfold retrigger
  rw [if_neg hm]

/-- C19: `getBusMilliVolts` (after the optional wait has returned) reads the bus-voltage
register; when the cached operating mode is triggered-bus (0b010) or triggered-both (0b011) it
then reads the configuration register and writes the 16-bit value read back to it, and when
the cached mode is 0b001, 0b100, 0b101, 0b110 or 0b111 the read of the bus-voltage register is
its last bus transaction, so no configuration write is made. -/
theorem getBusMilliVolts_retrigger (fuel : Nat) (waitSwitch : Bool) (u : Fin INA_COUNT)
    (s s1 : Sys) (c : Nat) (hw : waitIf fuel waitSwitch s = Except.ok s1) (hc : c < 2 ^ 16)
    (hd : delivers (inaReadWord INA_BUS_VOLT_REG (s.ina.inaARRAY u).address s1).2
      (s.ina.inaARRAY u).address INA_CONFIG_REG c) :
    ∃ v t, getBusMilliVolts fuel waitSwitch u.val s = Except.ok (v, t) ∧
      (((s.ina.inaARRAY u).operatingMode = 0b010 ∨ (s.ina.inaARRAY u).operatingMode = 0b011) →
        t.wire.log =
          BusEvent.transmit ((s.ina.inaARRAY u).address % 2 ^ 8)
            [INA_CONFIG_REG, c / 256, c % 256] ::
          BusEvent.request ((s.ina.inaARRAY u).address % 2 ^ 8) 2 ::
          BusEvent.transmit ((s.ina.inaARRAY u).address % 2 ^ 8) [INA_CONFIG_REG] ::
          BusEvent.request ((s.ina.inaARRAY u).address % 2 ^ 8) 2 ::
          BusEvent.transmit ((s.ina.inaARRAY u).address % 2 ^ 8) [INA_BUS_VOLT_REG] ::
          s1.wire.log) ∧
      (((s.ina.inaARRAY u).operatingMode = 0b001 ∨ (s.ina.inaARRAY u).operatingMode = 0b100 ∨
        (s.ina.inaARRAY u).operatingMode = 0b101 ∨ (s.ina.inaARRAY u).operatingMode = 0b110 ∨
        (s.ina.inaARRAY u).operatingMode = 0b111) →
        t.wire.log =
          BusEvent.request ((s.ina.inaARRAY u).address % 2 ^ 8) 2 ::
          BusEvent.transmit ((s.ina.inaARRAY u).address % 2 ^ 8) [INA_BUS_VOLT_REG] ::
          s1.wire.log) := by
  have hu := unit_lt u
  obtain ⟨ha, _, _⟩ := waitIf_frame fuel waitSwitch s s1 hw
  have ht : getBusMilliVolts fuel waitSwitch u.val s = Except.ok
      (bits16 (inaReadWord INA_BUS_VOLT_REG (s.ina.inaARRAY u).address s1).1
          * INA_BUS_VOLT_LSB % 2 ^ 32 / 100 % 2 ^ 16,
        retrigger (s.ina.inaARRAY u)
          (inaReadWord INA_BUS_VOLT_REG (s.ina.inaARRAY u).address s1).2) := by
    simp only [getBusMilliVolts, hw, dif_pos hu, unit_index u hu, ha]
  refine ⟨_, _, ht, ?_, ?_⟩
  · intro hm
    rw [retrigger_log_on _ _ c hc (by rcases hm with h | h <;> rw [h] <;> decide) hd,
      inaReadWord_log]
    rfl
  · intro hm
    rw [retrigger_off _ _
      (by rcases hm with h | h | h | h | h <;> rw [h] <;> decide), inaReadWord_log]
    rfl

/-- C19: the statement instantiated at unit 0 with cached mode triggered-both, no wait, on a
bus whose device answers 0x4123. -/
theorem getBusMilliVolts_retrigger_witness :
    delivers (inaReadWord INA_BUS_VOLT_REG
        ((slotSys ⟨0x40, 2048, 24994, 624850, 0b011⟩ 0x4123).ina.inaARRAY 0).address
        (slotSys ⟨0x40, 2048, 24994, 624850, 0b011⟩ 0x4123)).2
      ((slotSys ⟨0x40, 2048, 24994, 624850, 0b011⟩ 0x4123).ina.inaARRAY 0).address
      INA_CONFIG_REG 0x4123 ∧
    ∃ v t, getBusMilliVolts 0 false (0 : Fin INA_COUNT).val
        (slotSys ⟨0x40, 2048, 24994, 624850, 0b011⟩ 0x4123) = Except.ok (v, t) ∧
      t.wire.log =
        [BusEvent.transmit 0x40 [INA_CONFIG_REG, 0x41, 0x23],
         BusEvent.request 0x40 2,
         BusEvent.transmit 0x40 [INA_CONFIG_REG],
         BusEvent.request 0x40 2,
         BusEvent.transmit 0x40 [INA_BUS_VOLT_REG]] := by
  refine ⟨by decide, ?_⟩
  obtain ⟨v, t, h, h1, _⟩ := getBusMilliVolts_retrigger 0 false 0
    (slotSys ⟨0x40, 2048, 24994, 624850, 0b011⟩ 0x4123)
    (slotSys ⟨0x40, 2048, 24994, 624850, 0b011⟩ 0x4123) 0x4123 rfl (by decide) (by decide)
  exact ⟨v, t, h, h1 (Or.inr rfl)⟩

/-- C20 (evaluation at the failing inputs): with the cached mode triggered-shunt (0b001),
`getShuntMicroVolts` ends with the read of the shunt-voltage register and makes no register
write, so the next shunt conversion is not re-triggered; with the cached mode triggered-bus
(0b010), which does not measure the shunt, it writes the configuration register back. The
test is the one of `getBusMilliVolts`: bit 2 clear and bit 1 (bus) set. -/
theorem getShuntMicroVolts_tests_bus_bit :
    (getShuntMicroVolts 0 false 0 (slotSys ⟨0x40, 2048, 24994, 624850, 0b001⟩ 0x4121)).map
        (fun r => r.2.wire.log)
      = Except.ok [BusEvent.request 0x40 2, BusEvent.transmit 0x40 [INA_SHUNT_VOLT_REG]] ∧
    (getShuntMicroVolts 0 false 0 (slotSys ⟨0x40, 2048, 24994, 624850, 0b001⟩ 0x4121)).map
        (fun r => regWrites r.2.wire.log) = Except.ok [] ∧
    (getShuntMicroVolts 0 false 0 (slotSys ⟨0x40, 2048, 24994, 624850, 0b010⟩ 0x4122)).map
        (fun r => regWrites r.2.wire.log) = Except.ok [(0x40, INA_CONFIG_REG, 0x4122)] :=
  ⟨rfl, rfl, rfl⟩

/-! ## The cached mode and the device's configuration register -/

theorem deviceConfig_congr (a : Nat) (l1 l2 : List BusEvent) (h : regWrites l1 = regWrites l2) :
    deviceConfig a l1 = deviceConfig a l2 := by
  unfold deviceConfig lastConfigWrite
  rw [h]

theorem deviceConfig_of_write (a w : Nat) (log : List BusEvent) (rest : List (Nat × Nat × Nat))
    (h : regWrites log = (a, INA_CONFIG_REG, w) :: rest) (hw : w < 2 ^ 15) :
    deviceConfig a log = some w := by
  unfold deviceConfig lastConfigWrite
  rw [h]
  simp [List.find?, Nat.testBit_lt_two_pow hw]

theorem delivers_of_faithful (s : Sys) (addr c : Nat) (hf : faithful s.wire (addr % 2 ^ 8))
    (hc : deviceConfig (addr % 2 ^ 8) s.wire.log = some c) :
    delivers s addr INA_CONFIG_REG c :=
  hf s.wire.log c hc

theorem faithful_of_respond (w1 w2 : TwoWire) (a : Nat) (h : w2.respond = w1.respond)
    (hf : faithful w1 a) : faithful w2 a := by
  intro log c hc
  rw [h]
  exact hf log c hc

theorem low3_of_frame (w c : Nat) (h : ∀ j, j < 3 → w.testBit j = c.testBit j) :
    w % 8 = c % 8 := by
  apply Nat.eq_of_testBit_eq
  intro j
  have e : (8 : Nat) = 2 ^ 3 := rfl
  rw [e, Nat.testBit_mod_two_pow, Nat.testBit_mod_two_pow]
  by_cases hj : j < 3
  · simp [hj, h j hj]
  · simp [hj]

/-- The outcome of `setMode` on a valid unit whose device delivers the configuration content
`c`: the word written, the new cache, and the device behaviour left as it was. -/
theorem setMode_writes (m : Nat) (u : Fin INA_COUNT) (s : Sys) (c : Nat)
    (hc : c < 2 ^ 16) (hd : delivers s (s.ina.inaARRAY u).address INA_CONFIG_REG c) :
    ∃ t, setMode m u.val s = Except.ok t ∧
      regWrites t.wire.log =
        ((s.ina.inaARRAY u).address % 2 ^ 8, INA_CONFIG_REG,
          (c &&& notMask INA_CONFIG_MODE_MASK) ||| (m &&& 0x0F)) :: regWrites s.wire.log ∧
      t.ina.inaARRAY = Function.update s.ina.inaARRAY u
        { s.ina.inaARRAY u with operatingMode := m &&& 0x0F } ∧
      t.wire.respond = s.wire.respond := by
  have hu := unit_lt u
  have hlt : (c &&& notMask INA_CONFIG_MODE_MASK) ||| (m &&& 0x0F) < 2 ^ 16 :=
    Nat.or_lt_two_pow (lt_of_le_of_lt Nat.and_le_left hc) (Nat.and_lt_two_pow m (by norm_num))
  have hb := bits16_of_delivers s _ _ c hc hd
  have ht : setMode m u.val s = Except.ok (inaWriteWord INA_CONFIG_REG
      ((c &&& notMask INA_CONFIG_MODE_MASK) ||| (m &&& 0x0F)) (s.ina.inaARRAY u).address
      { (inaReadWord INA_CONFIG_REG (s.ina.inaARRAY u).address s).2 with
        ina := { (inaReadWord INA_CONFIG_REG (s.ina.inaARRAY u).address s).2.ina with
          inaARRAY := Function.update s.ina.inaARRAY u
            { s.ina.inaARRAY u with operatingMode := m &&& 0x0F } } }) := by
    simp only [setMode, dif_pos hu, unit_index u hu, inaWriteWord_inaARRAY,
      inaReadWord_inaARRAY, Function.update_same, mask_low4, hb]
  refine ⟨_, ht, ?_, rfl, ?_⟩
  · rw [regWrites_write _ _ _ _ hlt]
    have e : INA_CONFIG_REG % 2 ^ 8 = INA_CONFIG_REG := by decide
    rw [e]
    exact congrArg _ (regWrites_read s _ _)
  · rw [inaWriteWord_respond]
    exact inaReadWord_respond s _ _

theorem setAveraging_respond (n v : Nat) (s t : Sys) (h : setAveraging n v s = Except.ok t) :
    t.wire.respond = s.wire.respond := by
  unfold setAveraging at h
  by_cases hu : v % 2 ^ 8 < INA_COUNT
  · simp only [dif_pos hu] at h
    have e := except_ok_inj h
    subst e
    rw [inaWriteWord_respond, inaReadWord_respond]
  · simp only [dif_neg hu] at h
    cases h

theorem setBusConversion_respond (k v : Nat) (s t : Sys)
    (h : setBusConversion k v s = Except.ok t) : t.wire.respond = s.wire.respond := by
  unfold setBusConversion at h
  by_cases hu : v % 2 ^ 8 < INA_COUNT
  · simp only [dif_pos hu] at h
    have e := except_ok_inj h
    subst e
    rw [inaWriteWord_respond, inaReadWord_respond]
  · simp only [dif_neg hu] at h
    cases h

theorem setShuntConversion_respond (k v : Nat) (s t : Sys)
    (h : setShuntConversion k v s = Except.ok t) : t.wire.respond = s.wire.respond := by
  unfold setShuntConversion at h
  by_cases hu : v % 2 ^ 8 < INA_COUNT
  · simp only [dif_pos hu] at h
    have e := except_ok_inj h
    subst e
    rw [inaWriteWord_respond, inaReadWord_respond]
  · simp only [dif_neg hu] at h
    cases h

theorem modeInStep_of_frame (a : Nat) (u : Fin INA_COUNT) (s t : Sys) (hI : modeInStep a u s)
    (h1 : t.ina.inaARRAY = s.ina.inaARRAY) (h2 : t.wire.respond = s.wire.respond)
    (h3 : regWrites t.wire.log = regWrites s.wire.log) : modeInStep a u t := by
  obtain ⟨hf, haddr, c, hcfg, hc15, hmode⟩ := hI
  refine ⟨faithful_of_respond s.wire t.wire a h2 hf, by rw [h1]; exact haddr, c, ?_, hc15,
    by rw [h1]; exact hmode⟩
  rw [deviceConfig_congr a _ _ h3]
  exact hcfg

/-- A write of the 3-bit field at `p ≥ 3` of the configuration register keeps the cached mode
in step, when nothing else changes. -/
theorem modeInStep_of_field_write (a : Nat) (u : Fin INA_COUNT) (s t : Sys) (c v p : Nat)
    (hI : modeInStep a u s) (hcfg : deviceConfig a s.wire.log = some c)
    (hv : v < 8) (hp3 : 3 ≤ p) (hp : p + 3 ≤ 15)
    (h1 : t.ina.inaARRAY = s.ina.inaARRAY) (h2 : t.wire.respond = s.wire.respond)
    (h3 : regWrites t.wire.log =
      (a, INA_CONFIG_REG, (c &&& notMask (7 <<< p)) ||| (v <<< p)) :: regWrites s.wire.log) :
    modeInStep a u t := by
  obtain ⟨hf, haddr, c2, hcfg2, hc15, hmode⟩ := hI
  have e : c2 = c := Option.some.inj (hcfg2.symm.trans hcfg)
  subst e
  have hc16 : c2 < 2 ^ 16 := by omega
  refine ⟨faithful_of_respond s.wire t.wire a h2 hf, by rw [h1]; exact haddr, _,
    deviceConfig_of_write a _ _ _ h3 (field_write_lt c2 v p 15 hc15 hv hp), 
    field_write_lt c2 v p 15 hc15 hv hp, ?_⟩
  rw [h1, hmode]
  exact (low3_of_frame _ _
    (fun j hj => field_write_frame c2 v p j hc16 hv (Or.inl (by omega)))).symm

theorem retrigger_in_step (a : Nat) (u : Fin INA_COUNT) (s : Sys) (hI : modeInStep a u s) :
    modeInStep a u (retrigger (s.ina.inaARRAY u) s) := by
  by_cases hm : bitRead (s.ina.inaARRAY u).operatingMode 2 = 0 ∧
      bitRead (s.ina.inaARRAY u).operatingMode 1 ≠ 0
  · obtain ⟨hf, haddr, c, hcfg, hc15, hmode⟩ := hI
    subst haddr
    have hc16 : c < 2 ^ 16 := by omega
    have hd := delivers_of_faithful s _ c hf hcfg
    have hb := bits16_of_delivers s _ _ c hc16 hd
    have hw : regWrites (retrigger (s.ina.inaARRAY u) s).wire.log =
        ((s.ina.inaARRAY u).address % 2 ^ 8, INA_CONFIG_REG, c) :: regWrites s.wire.log := by
      simp only [retrigger, if_pos hm, hb]
      rw [regWrites_write _ _ _ _ hc16, regWrites_read]
      rfl
    have hr : (retrigger (s.ina.inaARRAY u) s).wire.respond = s.wire.respond := by
      simp only [retrigger, if_pos hm, inaWriteWord_respond, inaReadWord_respond]
    have ha : (retrigger (s.ina.inaARRAY u) s).ina.inaARRAY = s.ina.inaARRAY := by
      simp only [retrigger, if_pos hm, inaWriteWord_inaARRAY, inaReadWord_inaARRAY]
    refine ⟨faithful_of_respond _ _ _ hr hf, by rw [ha], c,
      deviceConfig_of_write _ _ _ _ hw hc15, hc15, by rw [ha]; exact hmode⟩
  · rw [retrigger_off _ _ hm]
    exact hI

/-- Every operation other than `reset`, with `setMode` restricted to modes 0..7, keeps the
cached mode in step with the device. -/
theorem modeInStep_step (a : Nat) (u : Fin INA_COUNT) (s t : Sys) (op : Op)
    (hI : modeInStep a u s) (hk : op.keepsMode) (h : op.apply u.val s = Except.ok t) :
    modeInStep a u t := by
  have hu := unit_lt u
  obtain ⟨hf, haddr, c, hcfg, hc15, hmode⟩ := id hI
  have hc16 : c < 2 ^ 16 := by omega
  have hd : delivers s (s.ina.inaARRAY u).address INA_CONFIG_REG c :=
    delivers_of_faithful s _ c (by rw [haddr]; exact hf) (by rw [haddr]; exact hcfg)
  cases op with
  | mode m =>
    have hm7 : m ≤ 7 := hk
    obtain ⟨t2, ht2, hw, harr, hresp⟩ := setMode_writes m u s c hc16 hd
    have e : t2 = t := except_ok_inj (ht2.symm.trans h)
    subst e
    have hm : m &&& 0x0F = m := by
      have h2 : m &&& 15 = m % 2 ^ 4 := Nat.and_pow_two_sub_one_eq_mod m 4
      rw [h2]
      omega
    have hmask : INA_CONFIG_MODE_MASK = 7 <<< 0 := by decide
    rw [hm, hmask, haddr] at hw
    rw [hm] at harr
    have hw0 : regWrites t2.wire.log =
        (a, INA_CONFIG_REG, (c &&& notMask (7 <<< 0)) ||| (m <<< 0)) :: regWrites s.wire.log := by
      rw [Nat.shiftLeft_zero]
      exact hw
    have hval := field_write_value c m 0 hc16 (by omega)
    rw [Nat.shiftRight_zero] at hval
    refine ⟨faithful_of_respond s.wire t2.wire a hresp hf, ?_, _,
      deviceConfig_of_write a _ _ _ hw0 (field_write_lt c m 0 15 hc15 (by omega) (by norm_num)),
      field_write_lt c m 0 15 hc15 (by omega) (by norm_num), ?_⟩
    · rw [harr, Function.update_same]
      exact haddr
    · rw [harr, Function.update_same, hval]
  | averaging n =>
    obtain ⟨t2, ht2, hw, harr⟩ := setAveraging_writes n u s c hc16 hd
    have e : t2 = t := except_ok_inj (ht2.symm.trans h)
    subst e
    rw [haddr] at hw
    exact modeInStep_of_field_write a u s t2 c _ 9 hI hcfg (largestTierIndex_lt _)
      (by norm_num) (by norm_num) harr (setAveraging_respond _ _ _ _ ht2) hw
  | busConversion k =>
    obtain ⟨t2, ht2, hw, harr⟩ := setBusConversion_writes k u s c hc16 hd
    have e : t2 = t := except_ok_inj (ht2.symm.trans h)
    subst e
    rw [haddr] at hw
    exact modeInStep_of_field_write a u s t2 c _ 6 hI hcfg (by omega)
      (by norm_num) (by norm_num) harr (setBusConversion_respond _ _ _ _ ht2) hw
  | shuntConversion k =>
    obtain ⟨t2, ht2, hw, harr⟩ := setShuntConversion_writes k u s c hc16 hd
    have e : t2 = t := except_ok_inj (ht2.symm.trans h)
    subst e
    rw [haddr] at hw
    exact modeInStep_of_field_write a u s t2 c _ 3 hI hcfg (by omega)
      (by norm_num) (by norm_num) harr (setShuntConversion_respond _ _ _ _ ht2) hw
  | resetDevice => exact absurd hk id
  | busRead fuel w =>
    change (getBusMilliVolts fuel w u.val s).map Prod.snd = Except.ok t at h
    cases hws : waitIf fuel w s with
    | error e => simp [getBusMilliVolts, hws, Except.map] at h
    | ok s1 =>
      obtain ⟨h1, h2, h3⟩ := waitIf_frame fuel w s s1 hws
      simp only [getBusMilliVolts, hws, dif_pos hu, unit_index u hu, Except.map] at h
      have e := except_ok_inj h
      subst e
      have hI2 : modeInStep a u (inaReadWord INA_BUS_VOLT_REG (s1.ina.inaARRAY u).address s1).2 :=
        modeInStep_of_frame a u s _ hI h1 (by rw [inaReadWord_respond, h2])
          (by rw [regWrites_read, h3])
      have hI3 := retrigger_in_step a u _ hI2
      rw [inaReadWord_inaARRAY] at hI3
      exact hI3
  | shuntRead fuel w =>
    change (getShuntMicroVolts fuel w u.val s).map Prod.snd = Except.ok t at h
    cases hws : waitIf fuel w s with
    | error e => simp [getShuntMicroVolts, hws, Except.map] at h
    | ok s1 =>
      obtain ⟨h1, h2, h3⟩ := waitIf_frame fuel w s s1 hws
      simp only [getShuntMicroVolts, hws, dif_pos hu, unit_index u hu, Except.map] at h
      have e := except_ok_inj h
      subst e
      have hI2 : modeInStep a u
          (inaReadWord INA_SHUNT_VOLT_REG (s1.ina.inaARRAY u).address s1).2 :=
        modeInStep_of_frame a u s _ hI h1 (by rw [inaReadWord_respond, h2])
          (by rw [regWrites_read, h3])
      have hI3 := retrigger_in_step a u _ hI2
      rw [inaReadWord_inaARRAY] at hI3
      exact hI3

theorem runOps_in_step (a : Nat) (u : Fin INA_COUNT) (ops : List Op) (s t : Sys)
    (hI : modeInStep a u s) (hk : ∀ op ∈ ops, op.keepsMode)
    (h : runOps u.val ops s = Except.ok t) : modeInStep a u t := by
  induction ops generalizing s with
  | nil =>
    have e := except_ok_inj h
    subst e
    exact hI
  | cons op rest ih =>
    unfold runOps at h
    cases hop : op.apply u.val s with
    | error e =>
      rw [hop] at h
      cases h
    | ok s2 =>
      rw [hop] at h
      exact ih s2 (modeInStep_step a u s s2 op hI (hk op (List.mem_cons_self op rest)) hop)
        (fun o ho => hk o (List.mem_cons_of_mem op ho)) h

/-- A successful `begin` leaves the cached mode in step with a faithful device. -/
theorem begin_in_step (M R a : Nat) (u : Fin INA_COUNT) (s t : Sys)
    (hfa : faithful s.wire (a % 2 ^ 8)) (hf : found a s)
    (hb : begin M R u.val a s = Except.ok t) : modeInStep (a % 2 ^ 8) u t := by
  by_cases hd : (M % 2 ^ 8 * 1000000 % 2 ^ 64 / 32767 % 2 ^ 32 * (R % 2 ^ 32) % 2 ^ 64)
      / 100000 = 0
  · exfalso
    obtain ⟨hp, hr⟩ := hf
    have hu := unit_lt u
    unfold begin at hb
    simp only [hp, hr, if_true, dif_pos hu, if_pos hd] at hb
    cases hb
  · obtain ⟨t1, ht1, hslot, _, _⟩ := begin_of_found M R u a s hf hd
    obtain ⟨t2, ht2, hw, hresp⟩ := begin_found_writes M R u a s hf hd
    have e1 : t1 = t := except_ok_inj (ht1.symm.trans hb)
    have e2 : t2 = t := except_ok_inj (ht2.symm.trans hb)
    rw [e1] at hslot
    rw [e2] at hw hresp
    refine ⟨faithful_of_respond s.wire t.wire _ hresp hfa, by rw [hslot]; exact Nat.mod_mod _ _,
      INA_DEFAULT_CONFIG, ?_, by decide, by rw [hslot]; rfl⟩
    have h15 : Nat.testBit 32768 15 = true := by decide
    unfold deviceConfig lastConfigWrite
    rw [hw]
    simp [List.find?, INA_CALIBRATION_REG, INA_CONFIG_REG, INA_RESET_DEVICE, h15]

theorem echoWire_faithful (a : Nat) : faithful (echoWire a) a := by
  intro log c hc
  simp [echoWire, hc]

/-- C11 (counterexample): on a device that answers configuration reads faithfully, after a
successful `begin` the cached mode is 7 while the configuration word last written is the
reset word 0x8000, whose bits [2:0] are 0; and after `begin`, `setMode 3`, `reset` the cached
mode is 3 while the last written word is again 0x8000 (bits [2:0] = 0) and the device, back
at its default 0x4127, is in mode 7. -/
theorem cached_mode_out_of_step :
    found 0x40 { ina := freshINA, wire := echoWire 0x40 } ∧
    (begin 100 100000 0 0x40 { ina := freshINA, wire := echoWire 0x40 }).map
        (fun s => ((s.ina.inaARRAY 0).operatingMode, lastConfigWrite 0x40 s.wire.log))
      = Except.ok (7, some 0x8000) ∧
    ((begin 100 100000 0 0x40 { ina := freshINA, wire := echoWire 0x40 }).bind
        (runOps 0 [Op.mode 3, Op.resetDevice])).map
        (fun s => ((s.ina.inaARRAY 0).operatingMode, lastConfigWrite 0x40 s.wire.log,
          deviceConfig 0x40 s.wire.log))
      = Except.ok (3, some 0x8000, some 0x4127) ∧
    0x8000 % 8 = 0 ∧ 0x4127 % 8 = 7 :=
  ⟨by decide, rfl, rfl, by decide, by decide⟩

/-- C11 (amended): on a device that answers reads of its configuration register with the
register's content (the word last written to it, or the default 0x4127 after a word with the
reset bit), in every state reached from a successful `begin` by any sequence of `setMode` with
a mode in 0..7, `setAveraging`, `setBusConversion`, `setShuntConversion` and voltage reads on
that unit (no `reset`), the cached operating mode of the unit equals bits [2:0] of the
content of the device's configuration register. -/
theorem cached_mode_in_step (M R a : Nat) (u : Fin INA_COUNT) (s0 s1 s : Sys) (ops : List Op)
    (hfa : faithful s0.wire (a % 2 ^ 8)) (hf : found a s0)
    (hb : begin M R u.val a s0 = Except.ok s1)
    (hk : ∀ op ∈ ops, op.keepsMode)
    (hrun : runOps u.val ops s1 = Except.ok s) :
    ∃ c, deviceConfig (a % 2 ^ 8) s.wire.log = some c ∧
      (s.ina.inaARRAY u).operatingMode = c % 8 := by
  obtain ⟨_, _, c, h1, _, h2⟩ :=
    runOps_in_step (a % 2 ^ 8) u ops s1 s (begin_in_step M R a u s0 s1 hfa hf hb) hk hrun
  exact ⟨c, h1, h2⟩

/-- C11: the amended statement instantiated on the faithful device at 0x40: `begin`, then
`setMode 3`, `setAveraging 500`, `setBusConversion 9`, `setShuntConversion 2`, a bus-voltage
read and a shunt-voltage read, all on unit 0. -/
theorem cached_mode_in_step_witness :
    found 0x40 echoSys ∧
    begin 100 100000 (0 : Fin INA_COUNT).val 0x40 echoSys =
      Except.ok ((begin 100 100000 0 0x40 echoSys).toOption.getD echoSys) ∧
    runOps (0 : Fin INA_COUNT).val
        [Op.mode 3, Op.averaging 500, Op.busConversion 9, Op.shuntConversion 2,
          Op.busRead 0 false, Op.shuntRead 0 false]
        ((begin 100 100000 0 0x40 echoSys).toOption.getD echoSys) =
      Except.ok ((runOps 0
        [Op.mode 3, Op.averaging 500, Op.busConversion 9, Op.shuntConversion 2,
          Op.busRead 0 false, Op.shuntRead 0 false]
        ((begin 100 100000 0 0x40 echoSys).toOption.getD echoSys)).toOption.getD echoSys) ∧
    ∃ c, deviceConfig (0x40 % 2 ^ 8) ((runOps 0
        [Op.mode 3, Op.averaging 500, Op.busConversion 9, Op.shuntConversion 2,
          Op.busRead 0 false, Op.shuntRead 0 false]
        ((begin 100 100000 0 0x40 echoSys).toOption.getD echoSys)).toOption.getD
          echoSys).wire.log = some c ∧
      (((runOps 0
        [Op.mode 3, Op.averaging 500, Op.busConversion 9, Op.shuntConversion 2,
          Op.busRead 0 false, Op.shuntRead 0 false]
        ((begin 100 100000 0 0x40 echoSys).toOption.getD echoSys)).toOption.getD
          echoSys).ina.inaARRAY 0).operatingMode = c % 8 :=
  ⟨by decide, rfl, rfl,
   cached_mode_in_step 100 100000 0x40 0 echoSys
     ((begin 100 100000 0 0x40 echoSys).toOption.getD echoSys)
     ((runOps 0
        [Op.mode 3, Op.averaging 500, Op.busConversion 9, Op.shuntConversion 2,
          Op.busRead 0 false, Op.shuntRead 0 false]
        ((begin 100 100000 0 0x40 echoSys).toOption.getD echoSys)).toOption.getD echoSys)
     [Op.mode 3, Op.averaging 500, Op.busConversion 9, Op.shuntConversion 2,
       Op.busRead 0 false, Op.shuntRead 0 false]
     (echoWire_faithful 0x40) (by decide) rfl (by decide) rfl⟩

/-! ## The wait before a voltage read -/

/-- C21 (evaluation at the failing input): with unit 0 registered at address 0x40 and unit 1
at address 0x41, `getBusMilliVolts(true, 1)` and `getShuntMicroVolts(true, 1)` poll the
mask/enable register of the device at 0x40, the one of slot 0, and then read the measurement
register of the device at 0x41: the wait is called without the unit and takes the default
`UNIT_ID = 0` of the header. -/
theorem wait_polls_unit_zero :
    ((twoSlotSys 8).ina.inaARRAY 0).address = 0x40 ∧
    ((twoSlotSys 8).ina.inaARRAY 1).address = 0x41 ∧
    (getBusMilliVolts 1 true 1 (twoSlotSys 8)).map (fun r => r.2.wire.log) =
      Except.ok [BusEvent.request 0x41 2, BusEvent.transmit 0x41 [INA_BUS_VOLT_REG],
        BusEvent.request 0x40 2, BusEvent.transmit 0x40 [INA_MASK_ENABLE_REG]] ∧
    (getShuntMicroVolts 1 true 1 (twoSlotSys 8)).map (fun r => r.2.wire.log) =
      Except.ok [BusEvent.request 0x41 2, BusEvent.transmit 0x41 [INA_SHUNT_VOLT_REG],
        BusEvent.request 0x40 2, BusEvent.transmit 0x40 [INA_MASK_ENABLE_REG]] :=
  ⟨rfl, rfl, rfl, rfl⟩

/-! ## `reset` -/

/-- C22: `reset` on a unit of the array returns after exactly one bus transaction, the write
of the word 0x8000 (bit 15 and no other bit) to the configuration register of the unit's
stored address; it writes nothing to the calibration register and leaves every record of the
registry unchanged. -/
theorem reset_frame (u : Fin INA_COUNT) (s : Sys) :
    ∃ t, reset u.val s = Except.ok t ∧
      t.wire.log =
        BusEvent.transmit ((s.ina.inaARRAY u).address % 2 ^ 8) [INA_CONFIG_REG, 0x80, 0x00]
          :: s.wire.log ∧
      regWrites t.wire.log =
        ((s.ina.inaARRAY u).address % 2 ^ 8, INA_CONFIG_REG, 0x8000) :: regWrites s.wire.log ∧
      (∀ j, (0x8000 : Nat).testBit j = decide (j = 15)) ∧
      (regWrites t.wire.log).filter (fun x => decide (x.2.1 = INA_CALIBRATION_REG)) =
        (regWrites s.wire.log).filter (fun x => decide (x.2.1 = INA_CALIBRATION_REG)) ∧
      t.ina.inaARRAY = s.ina.inaARRAY := by
  have hu := unit_lt u
  have ht : reset u.val s = Except.ok
      (inaWriteWord INA_CONFIG_REG 0x8000 (s.ina.inaARRAY u).address s) := by
    simp only [reset, dif_pos hu, unit_index u hu]
  have hw : regWrites (inaWriteWord INA_CONFIG_REG 0x8000 (s.ina.inaARRAY u).address s).wire.log =
      ((s.ina.inaARRAY u).address % 2 ^ 8, INA_CONFIG_REG, 0x8000) :: regWrites s.wire.log := by
    rw [regWrites_write _ _ _ _ (by norm_num)]
    rfl
  refine ⟨_, ht, ?_, hw, ?_, ?_, rfl⟩
  · rw [inaWriteWord_log]
    rfl
  · intro j
    have e : (0x8000 : Nat) = 2 ^ 15 := by norm_num
    rw [e, Nat.testBit_two_pow]
    by_cases h : j = 15
    · simp [h]
    · have h2 : ¬ (15 = j) := fun h3 => h h3.symm
      simp [h, h2]
  · rw [hw]
    simp [List.filter_cons, INA_CALIBRATION_REG, INA_CONFIG_REG]

/-! ## Words on the bus -/

/-- C24: for every 16-bit word `w`, `inaWriteWord` sends the register address, then the high
byte of `w`, then the low byte of `w`; and when a device answers a word read with these two
bytes in this order, `inaReadWord` returns the value whose 16-bit pattern is `w`. -/
theorem word_round_trip (w regAddr deviceAddr : Nat) (s s2 : Sys) (hw : w < 2 ^ 16)
    (hd : s2.wire.respond (BusEvent.request (deviceAddr % 2 ^ 8) 2 ::
        BusEvent.transmit (deviceAddr % 2 ^ 8) [regAddr % 2 ^ 8] :: s2.wire.log)
      = [w / 256, w % 256]) :
    (inaWriteWord regAddr w deviceAddr s).wire.log =
      BusEvent.transmit (deviceAddr % 2 ^ 8) [regAddr % 2 ^ 8, w / 256, w % 256]
        :: s.wire.log ∧
    regWrites (inaWriteWord regAddr w deviceAddr s).wire.log =
      (deviceAddr % 2 ^ 8, regAddr % 2 ^ 8, w) :: regWrites s.wire.log ∧
    bits16 (inaReadWord regAddr deviceAddr s2).1 = w ∧
    (inaReadWord regAddr deviceAddr s2).1 = i16 w := by
  have e1 : (w % 2 ^ 16) >>> 8 % 2 ^ 8 = w / 256 := by
    rw [Nat.shiftRight_eq_div_pow, Nat.mod_eq_of_lt hw]
    omega
  have e2 : w % 2 ^ 8 = w % 256 := rfl
  refine ⟨by rw [inaWriteWord_log, e1, e2], regWrites_write s _ _ _ hw,
    bits16_of_delivers s2 _ _ w hw hd, inaReadWord_of_delivers s2 _ _ w hw hd⟩

/-- C24: the statement instantiated at `w = 0xABCD`, register 5, address 0x40. -/
theorem word_round_trip_witness :
    (freshSys 0xABCD).wire.respond (BusEvent.request (0x40 % 2 ^ 8) 2 ::
        BusEvent.transmit (0x40 % 2 ^ 8) [5 % 2 ^ 8] :: (freshSys 0xABCD).wire.log)
      = [0xABCD / 256, 0xABCD % 256] ∧
    (inaWriteWord 5 0xABCD 0x40 (freshSys 0)).wire.log =
      BusEvent.transmit (0x40 % 2 ^ 8) [5 % 2 ^ 8, 0xABCD / 256, 0xABCD % 256]
        :: (freshSys 0).wire.log ∧
    regWrites (inaWriteWord 5 0xABCD 0x40 (freshSys 0)).wire.log =
      (0x40 % 2 ^ 8, 5 % 2 ^ 8, 0xABCD) :: regWrites (freshSys 0).wire.log ∧
    bits16 (inaReadWord 5 0x40 (freshSys 0xABCD)).1 = 0xABCD ∧
    (inaReadWord 5 0x40 (freshSys 0xABCD)).1 = i16 0xABCD :=
  ⟨by decide,
   word_round_trip 0xABCD 5 0x40 (freshSys 0) (freshSys 0xABCD) (by decide) (by decide)⟩

/-! ## The sign of the power reading -/

/-- C26 (evaluation at the failing input): with the power register holding 0x8000 and
`power_LSB = 624850`, `getBusMicroWatts` returns -20475084: the register content goes through
the `int16_t` result of `inaReadWord` and is sign-extended, so every content of 0x8000 and
above gives a negative number of microwatts when `power_LSB` is not 0. -/
theorem getBusMicroWatts_negative :
    delivers (slotSys ⟨0x40, 2048, 24994, 624850, 7⟩ 0x8000) 0x40 INA_POWER_REGISTER 0x8000 ∧
    (getBusMicroWatts 0 (slotSys ⟨0x40, 2048, 24994, 624850, 7⟩ 0x8000)).map Prod.fst =
      Except.ok (-20475084) ∧
    (-20475084 : Int) < 0 :=
  ⟨by decide, rfl, by decide⟩

/-! ## `waitForConversion` -/

theorem pollLog_succ_inner (a n : Nat) (log : List BusEvent) :
    pollLog a n (BusEvent.request a 2 :: BusEvent.transmit a [INA_MASK_ENABLE_REG] :: log) =
      pollLog a (n + 1) log := by
  induction n with
  | zero => rfl
  | succ m ih =>
    show BusEvent.request a 2 :: BusEvent.transmit a [INA_MASK_ENABLE_REG] ::
      pollLog a m (BusEvent.request a 2 :: BusEvent.transmit a [INA_MASK_ENABLE_REG] :: log) = _
    rw [ih]
    rfl

theorem regWrites_pollLog (a n : Nat) (log : List BusEvent) :
    regWrites (pollLog a n log) = regWrites log := by
  induction n with
  | zero => rfl
  | succ m ih =>
    show regWrites (BusEvent.request a 2 :: BusEvent.transmit a [INA_MASK_ENABLE_REG] ::
      pollLog a m log) = _
    rw [← ih]
    simp [regWrites, regWrite]

theorem poll_read_log (u : Fin INA_COUNT) (s : Sys) :
    (inaReadWord INA_MASK_ENABLE_REG (s.ina.inaARRAY u).address s).2.wire.log =
      pollLog ((s.ina.inaARRAY u).address % 2 ^ 8) 1 s.wire.log := by
  rw [inaReadWord_log]
  rfl

/-- The polling loop against a device whose successive answers are `v 0, v 1, ...`, the first
with bit 3 set being `v k`. -/
theorem waitForConversion_run (u : Fin INA_COUNT) (k : Nat) :
    ∀ (s : Sys) (v : Nat → Nat),
      (∀ i, i ≤ k → v i < 2 ^ 16) →
      (∀ i, i ≤ k → s.wire.respond
        (pollLog ((s.ina.inaARRAY u).address % 2 ^ 8) (i + 1) s.wire.log)
          = [v i / 256, v i % 256]) →
      (∀ i, i < k → v i &&& 8 = 0) → v k &&& 8 ≠ 0 →
      (∀ fuel, fuel ≤ k → waitForConversion fuel u.val s = Except.error Fault.outOfFuel) ∧
      (∀ fuel, k < fuel → ∃ t, waitForConversion fuel u.val s = Except.ok t ∧
        t.wire.log = pollLog ((s.ina.inaARRAY u).address % 2 ^ 8) (k + 1) s.wire.log ∧
        t.ina.inaARRAY = s.ina.inaARRAY) := by
  have hu := unit_lt u
  induction k with
  | zero =>
    intro s v hv hdev _ hset
    have hb : bits16 (inaReadWord INA_MASK_ENABLE_REG (s.ina.inaARRAY u).address s).1 = v 0 :=
      bits16_of_delivers s _ _ (v 0) (hv 0 (le_refl 0)) (hdev 0 (le_refl 0))
    constructor
    · intro fuel hfuel
      have e : fuel = 0 := by omega
      subst e
      rfl
    · intro fuel hfuel
      obtain ⟨f, rfl⟩ : ∃ f, fuel = f + 1 := ⟨fuel - 1, by omega⟩
      refine ⟨(inaReadWord INA_MASK_ENABLE_REG (s.ina.inaARRAY u).address s).2, ?_,
        poll_read_log u s, rfl⟩
      simp only [waitForConversion, dif_pos hu, unit_index u hu, hb, if_neg hset]
  | succ k ih =>
    intro s v hv hdev hclear hset
    have hb : bits16 (inaReadWord INA_MASK_ENABLE_REG (s.ina.inaARRAY u).address s).1 = v 0 :=
      bits16_of_delivers s _ _ (v 0) (hv 0 (by omega)) (hdev 0 (by omega))
    have h0 : v 0 &&& 8 = 0 := hclear 0 (by omega)
    have hlog := poll_read_log u s
    obtain ⟨ih1, ih2⟩ := ih (inaReadWord INA_MASK_ENABLE_REG (s.ina.inaARRAY u).address s).2
      (fun i => v (i + 1)) (fun i hi => hv (i + 1) (by omega))
      (fun i hi => by
        rw [inaReadWord_respond, inaReadWord_inaARRAY, hlog]
        show s.wire.respond (pollLog _ (i + 1) (BusEvent.request _ 2 ::
          BusEvent.transmit _ [INA_MASK_ENABLE_REG] :: s.wire.log)) = _
        rw [pollLog_succ_inner]
        exact hdev (i + 1) (by omega))
      (fun i hi => hclear (i + 1) (by omega)) hset
    constructor
    · intro fuel hfuel
      cases fuel with
      | zero => rfl
      | succ f =>
        simp only [waitForConversion, dif_pos hu, unit_index u hu, hb, if_pos h0]
        exact ih1 f (by omega)
    · intro fuel hfuel
      obtain ⟨f, rfl⟩ : ∃ f, fuel = f + 1 := ⟨fuel - 1, by omega⟩
      obtain ⟨t, ht, htl, hta⟩ := ih2 f (by omega)
      refine ⟨t, ?_, ?_, ?_⟩
      · simp only [waitForConversion, dif_pos hu, unit_index u hu, hb, if_pos h0]
        exact ht
      · rw [htl, inaReadWord_inaARRAY, hlog]
        exact pollLog_succ_inner _ _ _
      · rw [hta, inaReadWord_inaARRAY]

/-- C23: for every sequence `v 0, v 1, ...` of 16-bit mask/enable values delivered by the
device of the unit, with `v k` the first whose conversion-ready bit (bit 3, the mask 8 that the
loop tests) is set, `waitForConversion` has not returned within `k` reads (all of them with
the bit clear), and given room for more than `k` passes it returns with exactly `k + 1` reads
of the mask/enable register as its only bus transactions, so without a register write, and
without a change to the records. -/
theorem waitForConversion_polls (u : Fin INA_COUNT) (s : Sys) (v : Nat → Nat) (k : Nat)
    (hv : ∀ i, i ≤ k → v i < 2 ^ 16)
    (hdev : ∀ i, i ≤ k → s.wire.respond
      (pollLog ((s.ina.inaARRAY u).address % 2 ^ 8) (i + 1) s.wire.log)
        = [v i / 256, v i % 256])
    (hclear : ∀ i, i < k → v i &&& 8 = 0) (hset : v k &&& 8 ≠ 0) :
    (∀ fuel, fuel ≤ k → waitForConversion fuel u.val s = Except.error Fault.outOfFuel) ∧
    (∀ fuel, k < fuel → ∃ t, waitForConversion fuel u.val s = Except.ok t ∧
      t.wire.log = pollLog ((s.ina.inaARRAY u).address % 2 ^ 8) (k + 1) s.wire.log ∧
      regWrites t.wire.log = regWrites s.wire.log ∧
      t.ina.inaARRAY = s.ina.inaARRAY) := by
  obtain ⟨h1, h2⟩ := waitForConversion_run u k s v hv hdev hclear hset
  refine ⟨h1, fun fuel hfuel => ?_⟩
  obtain ⟨t, ht, htl, hta⟩ := h2 fuel hfuel
  exact ⟨t, ht, htl, by rw [htl, regWrites_pollLog], hta⟩

/-- C23: the statement instantiated on a device that answers 0x0000 twice and then 0x0008,
for unit 0 of a fresh registry. -/
theorem waitForConversion_polls_witness :
    (∀ fuel, fuel ≤ 2 →
      waitForConversion fuel (0 : Fin INA_COUNT).val { ina := freshINA, wire := readyAfter 2 }
        = Except.error Fault.outOfFuel) ∧
    (∀ fuel, 2 < fuel → ∃ t,
      waitForConversion fuel (0 : Fin INA_COUNT).val { ina := freshINA, wire := readyAfter 2 }
        = Except.ok t ∧
      t.wire.log = pollLog ((freshINA.inaARRAY 0).address % 2 ^ 8) (2 + 1) (readyAfter 2).log ∧
      regWrites t.wire.log = regWrites (readyAfter 2).log ∧
      t.ina.inaARRAY = freshINA.inaARRAY) :=
  waitForConversion_polls 0 { ina := freshINA, wire := readyAfter 2 }
    (fun i => if i < 2 then 0 else 8) 2 (by decide) (by decide) (by decide) (by decide)

/-! ## The setters commute -/

theorem lastConfigWrite_of_write (a w : Nat) (log : List BusEvent)
    (rest : List (Nat × Nat × Nat)) (h : regWrites log = (a, INA_CONFIG_REG, w) :: rest) :
    lastConfigWrite a log = some w := by
  unfold lastConfigWrite
  rw [h]
  simp [List.find?]

theorem memoryWire_remembers (a : Nat) (log0 : List BusEvent) :
    remembers (memoryWire a log0) a := by
  intro log c hc
  simp [memoryWire, hc]

theorem remembers_of_respond (w1 w2 : TwoWire) (a : Nat) (h : w2.respond = w1.respond)
    (hf : remembers w1 a) : remembers w2 a := by
  intro log c hc
  rw [h]
  exact hf log c hc

/-- Two writes of 3-bit fields at positions that do not overlap give the same word in
either order. -/
theorem field_write_comm (c v x p q : Nat) (hc : c < 2 ^ 16) (hv : v < 8) (hx : x < 8)
    (hp : p + 3 ≤ 16) (hq : q + 3 ≤ 16) (hd : p + 3 ≤ q ∨ q + 3 ≤ p) :
    ((((c &&& notMask (7 <<< p)) ||| (v <<< p)) &&& notMask (7 <<< q)) ||| (x <<< q)) =
      ((((c &&& notMask (7 <<< q)) ||| (x <<< q)) &&& notMask (7 <<< p)) ||| (v <<< p)) := by
  apply Nat.eq_of_testBit_eq
  intro j
  rw [field_write_testBit _ x q j (field_write_lt c v p 16 hc hv hp) hx,
    field_write_testBit c v p j hc hv,
    field_write_testBit _ v p j (field_write_lt c x q 16 hc hx hq) hv,
    field_write_testBit c x q j hc hx]
  split_ifs <;> first | rfl | omega

theorem Op.field_cases (A : Op) (p : Nat) (h : A.field = some p) :
    p = 0 ∨ p = 3 ∨ p = 6 ∨ p = 9 := by
  cases A <;> simp [Op.field] at h <;> omega

/-- One setter on a valid unit whose device delivers the configuration content `c`: the
word it writes is `c` with the setter's field replaced by the setter's value. -/
theorem setter_step (A : Op) (p : Nat) (u : Fin INA_COUNT) (s : Sys) (c : Nat)
    (hA : A.field = some p) (hm : ∀ m, A = Op.mode m → m ≤ 7) (hc : c < 2 ^ 16)
    (hd : delivers s (s.ina.inaARRAY u).address INA_CONFIG_REG c) :
    A.value < 8 ∧
    ∃ t, A.apply u.val s = Except.ok t ∧
      regWrites t.wire.log =
        ((s.ina.inaARRAY u).address % 2 ^ 8, INA_CONFIG_REG,
          (c &&& notMask (7 <<< p)) ||| (A.value <<< p)) :: regWrites s.wire.log ∧
      (t.ina.inaARRAY u).address = (s.ina.inaARRAY u).address ∧
      t.wire.respond = s.wire.respond := by
  cases A with
  | mode m =>
    have hp : p = 0 := by simpa [Op.field] using hA.symm
    subst hp
    have hm7 : m ≤ 7 := hm m rfl
    have hmm : m &&& 0x0F = m := by
      have h2 : m &&& 15 = m % 2 ^ 4 := Nat.and_pow_two_sub_one_eq_mod m 4
      rw [h2]
      omega
    have hmask : INA_CONFIG_MODE_MASK = 7 <<< 0 := by decide
    obtain ⟨t, ht, hw, harr, hresp⟩ := setMode_writes m u s c hc hd
    rw [hmm, hmask] at hw
    refine ⟨by show m < 8; omega, t, ht, ?_, ?_, hresp⟩
    · show regWrites t.wire.log = (_, _, (c &&& notMask (7 <<< 0)) ||| (m <<< 0)) :: _
      rw [Nat.shiftLeft_zero]
      exact hw
    · rw [harr, Function.update_same]
  | averaging n =>
    have hp : p = 9 := by simpa [Op.field] using hA.symm
    subst hp
    obtain ⟨t, ht, hw, harr⟩ := setAveraging_writes n u s c hc hd
    exact ⟨largestTierIndex_lt _, t, ht, hw, by rw [harr], setAveraging_respond _ _ _ _ ht⟩
  | busConversion k =>
    have hp : p = 6 := by simpa [Op.field] using hA.symm
    subst hp
    obtain ⟨t, ht, hw, harr⟩ := setBusConversion_writes k u s c hc hd
    exact ⟨by show min (k % 2 ^ 8) 7 < 8; omega, t, ht, hw, by rw [harr],
      setBusConversion_respond _ _ _ _ ht⟩
  | shuntConversion k =>
    have hp : p = 3 := by simpa [Op.field] using hA.symm
    subst hp
    obtain ⟨t, ht, hw, harr⟩ := setShuntConversion_writes k u s c hc hd
    exact ⟨by show min (k % 2 ^ 8) 7 < 8; omega, t, ht, hw, by rw [harr],
      setShuntConversion_respond _ _ _ _ ht⟩
  | resetDevice => simp [Op.field] at hA
  | busRead fuel w => simp [Op.field] at hA
  | shuntRead fuel w => simp [Op.field] at hA

/-- Two setters of different fields, one after the other, on a device that is a plain memory
for its configuration register: the run returns and the register ends with both fields
replaced. -/
theorem two_setters (A B : Op) (p q : Nat) (a : Nat) (u : Fin INA_COUNT) (s : Sys) (c : Nat)
    (hrem : remembers s.wire a) (haddr : (s.ina.inaARRAY u).address % 2 ^ 8 = a)
    (hc : lastConfigWrite a s.wire.log = some c) (hc16 : c < 2 ^ 16)
    (hA : A.field = some p) (hB : B.field = some q)
    (hmA : ∀ m, A = Op.mode m → m ≤ 7) (hmB : ∀ m, B = Op.mode m → m ≤ 7) :
    ∃ t, runOps u.val [A, B] s = Except.ok t ∧
      lastConfigWrite a t.wire.log =
        some ((((c &&& notMask (7 <<< p)) ||| (A.value <<< p)) &&& notMask (7 <<< q))
          ||| (B.value <<< q)) := by
  have hp := Op.field_cases A p hA
  have hd : delivers s (s.ina.inaARRAY u).address INA_CONFIG_REG c := by
    have h := hrem s.wire.log c hc
    rw [← haddr] at h
    exact h
  obtain ⟨hvA, t1, ht1, hw1, ha1, hr1⟩ := setter_step A p u s c hA hmA hc16 hd
  rw [haddr] at hw1
  have hlt1 := field_write_lt c A.value p 16 hc16 hvA (by omega)
  have hc1 := lastConfigWrite_of_write a _ _ _ hw1
  have hd1 : delivers t1 (t1.ina.inaARRAY u).address INA_CONFIG_REG
      ((c &&& notMask (7 <<< p)) ||| (A.value <<< p)) := by
    have h := remembers_of_respond s.wire t1.wire a hr1 hrem t1.wire.log _ hc1
    rw [← haddr, ← ha1] at h
    exact h
  obtain ⟨_, t2, ht2, hw2, _, _⟩ := setter_step B q u t1 _ hB hmB hlt1 hd1
  rw [ha1, haddr] at hw2
  refine ⟨t2, ?_, lastConfigWrite_of_write a _ _ _ hw2⟩
  simp only [runOps, ht1, ht2]

/-- C25: on a device that is a plain memory for its configuration register, for every 16-bit
content `c` of the register and any two setters of different fields among `setMode` (mode in
0..7), `setAveraging`, `setBusConversion` and `setShuntConversion`, with any arguments, both
orders of application return and leave the same word in the configuration register. -/
theorem setters_commute (A B : Op) (p q : Nat) (a : Nat) (u : Fin INA_COUNT) (s : Sys)
    (c : Nat) (hrem : remembers s.wire a) (haddr : (s.ina.inaARRAY u).address % 2 ^ 8 = a)
    (hc : lastConfigWrite a s.wire.log = some c) (hc16 : c < 2 ^ 16)
    (hA : A.field = some p) (hB : B.field = some q) (hpq : p ≠ q)
    (hmA : ∀ m, A = Op.mode m → m ≤ 7) (hmB : ∀ m, B = Op.mode m → m ≤ 7) :
    ∃ t1 t2 w, runOps u.val [A, B] s = Except.ok t1 ∧ runOps u.val [B, A] s = Except.ok t2 ∧
      lastConfigWrite a t1.wire.log = some w ∧ lastConfigWrite a t2.wire.log = some w := by
  have hp := Op.field_cases A p hA
  have hq := Op.field_cases B q hB
  obtain ⟨t1, h1, w1⟩ := two_setters A B p q a u s c hrem haddr hc hc16 hA hB hmA hmB
  obtain ⟨t2, h2, w2⟩ := two_setters B A q p a u s c hrem haddr hc hc16 hB hA hmB hmA
  have hvA : A.value < 8 := (setter_step A p u s c hA hmA hc16 (by
    have h := hrem s.wire.log c hc
    rw [← haddr] at h
    exact h)).1
  have hvB : B.value < 8 := (setter_step B q u s c hB hmB hc16 (by
    have h := hrem s.wire.log c hc
    rw [← haddr] at h
    exact h)).1
  refine ⟨t1, t2, _, h1, h2, w1, ?_⟩
  rw [w2, field_write_comm c A.value B.value p q hc16 hvA hvB (by omega) (by omega) (by omega)]

/-- C25: the statement instantiated at `setMode 3` and `setAveraging 500` on unit 0, with the
configuration register holding 0xFFFF. -/
theorem setters_commute_witness :
    (memorySys.ina.inaARRAY 0).address % 2 ^ 8 = 0x40 ∧
    lastConfigWrite 0x40 memorySys.wire.log = some 0xFFFF ∧
    ∃ t1 t2 w,
      runOps (0 : Fin INA_COUNT).val [Op.mode 3, Op.averaging 500] memorySys = Except.ok t1 ∧
      runOps (0 : Fin INA_COUNT).val [Op.averaging 500, Op.mode 3] memorySys = Except.ok t2 ∧
      lastConfigWrite 0x40 t1.wire.log = some w ∧
      lastConfigWrite 0x40 t2.wire.log = some w :=
  ⟨by decide, by decide,
   setters_commute (Op.mode 3) (Op.averaging 500) 0 9 0x40 0 memorySys 0xFFFF
     (memoryWire_remembers 0x40 _) (by decide) (by decide) (by decide) rfl rfl (by decide)
     (fun m h => by
       have e : m = 3 := by injection h with h1; exact h1.symm
       omega)
     (fun m h => by cases h)⟩

/-! ## The records of the registry -/

theorem retrigger_inaARRAY (slot : inaSTRUCT) (s : Sys) :
    (retrigger slot s).ina.inaARRAY = s.ina.inaARRAY := by
  unfold retrigger
  split_ifs
  · rfl
  · rfl

theorem reset_inaARRAY (v : Nat) (s t : Sys) (h : reset v s = Except.ok t) :
    t.ina.inaARRAY = s.ina.inaARRAY := by
  unfold reset at h
  by_cases hu : v % 2 ^ 8 < INA_COUNT
  · simp only [dif_pos hu] at h
    have e := except_ok_inj h
    subst e
    rfl
  · simp only [dif_neg hu] at h
    cases h

theorem setAveraging_inaARRAY (n v : Nat) (s t : Sys) (h : setAveraging n v s = Except.ok t) :
    t.ina.inaARRAY = s.ina.inaARRAY := by
  unfold setAveraging at h
  by_cases hu : v % 2 ^ 8 < INA_COUNT
  · simp only [dif_pos hu] at h
    have e := except_ok_inj h
    subst e
    rfl
  · simp only [dif_neg hu] at h
    cases h

theorem setBusConversion_inaARRAY (k v : Nat) (s t : Sys)
    (h : setBusConversion k v s = Except.ok t) : t.ina.inaARRAY = s.ina.inaARRAY := by
  unfold setBusConversion at h
  by_cases hu : v % 2 ^ 8 < INA_COUNT
  · simp only [dif_pos hu] at h
    have e := except_ok_inj h
    subst e
    rfl
  · simp only [dif_neg hu] at h
    cases h

theorem setShuntConversion_inaARRAY (k v : Nat) (s t : Sys)
    (h : setShuntConversion k v s = Except.ok t) : t.ina.inaARRAY = s.ina.inaARRAY := by
  unfold setShuntConversion at h
  by_cases hu : v % 2 ^ 8 < INA_COUNT
  · simp only [dif_pos hu] at h
    have e := except_ok_inj h
    subst e
    rfl
  · simp only [dif_neg hu] at h
    cases h

theorem setAlertPinOnConversion_inaARRAY (b : Bool) (v : Nat) (s t : Sys)
    (h : setAlertPinOnConversion b v s = Except.ok t) : t.ina.inaARRAY = s.ina.inaARRAY := by
  unfold setAlertPinOnConversion at h
  by_cases hu : v % 2 ^ 8 < INA_COUNT
  · simp only [dif_pos hu] at h
    have e := except_ok_inj h
    subst e
    rfl
  · simp only [dif_neg hu] at h
    cases h

theorem getBusMicroAmps_inaARRAY (v : Nat) (s t : Sys)
    (h : (getBusMicroAmps v s).map Prod.snd = Except.ok t) : t.ina.inaARRAY = s.ina.inaARRAY := by
  unfold getBusMicroAmps at h
  by_cases hu : v % 2 ^ 8 < INA_COUNT
  · simp only [dif_pos hu, Except.map] at h
    have e := except_ok_inj h
    subst e
    rfl
  · simp only [dif_neg hu, Except.map] at h
    cases h

theorem getBusMicroWatts_inaARRAY (v : Nat) (s t : Sys)
    (h : (getBusMicroWatts v s).map Prod.snd = Except.ok t) : t.ina.inaARRAY = s.ina.inaARRAY := by
  unfold getBusMicroWatts at h
  by_cases hu : v % 2 ^ 8 < INA_COUNT
  · simp only [dif_pos hu, Except.map] at h
    have e := except_ok_inj h
    subst e
    rfl
  · simp only [dif_neg hu, Except.map] at h
    cases h

theorem getBusMilliVolts_inaARRAY (fuel : Nat) (w : Bool) (v : Nat) (s t : Sys)
    (h : (getBusMilliVolts fuel w v s).map Prod.snd = Except.ok t) :
    t.ina.inaARRAY = s.ina.inaARRAY := by
  cases hws : waitIf fuel w s with
  | error e => simp [getBusMilliVolts, hws, Except.map] at h
  | ok s1 =>
    obtain ⟨h1, _, _⟩ := waitIf_frame fuel w s s1 hws
    by_cases hu : v % 2 ^ 8 < INA_COUNT
    · simp only [getBusMilliVolts, hws, dif_pos hu, Except.map] at h
      have e := except_ok_inj h
      subst e
      rw [retrigger_inaARRAY, inaReadWord_inaARRAY, h1]
    · simp only [getBusMilliVolts, hws, dif_neg hu, Except.map] at h
      cases h

theorem getShuntMicroVolts_inaARRAY (fuel : Nat) (w : Bool) (v : Nat) (s t : Sys)
    (h : (getShuntMicroVolts fuel w v s).map Prod.snd = Except.ok t) :
    t.ina.inaARRAY = s.ina.inaARRAY := by
  cases hws : waitIf fuel w s with
  | error e => simp [getShuntMicroVolts, hws, Except.map] at h
  | ok s1 =>
    obtain ⟨h1, _, _⟩ := waitIf_frame fuel w s s1 hws
    by_cases hu : v % 2 ^ 8 < INA_COUNT
    · simp only [getShuntMicroVolts, hws, dif_pos hu, Except.map] at h
      have e := except_ok_inj h
      subst e
      rw [retrigger_inaARRAY, inaReadWord_inaARRAY, h1]
    · simp only [getShuntMicroVolts, hws, dif_neg hu, Except.map] at h
      cases h

theorem setMode_inaARRAY (m : Nat) (u : Fin INA_COUNT) (s t : Sys)
    (h : setMode m u.val s = Except.ok t) :
    t.ina.inaARRAY = Function.update s.ina.inaARRAY u
      { s.ina.inaARRAY u with operatingMode := m &&& 0x0F } := by
  have hu := unit_lt u
  simp only [setMode, dif_pos hu, unit_index u hu, mask_low4, inaReadWord_inaARRAY] at h
  have e := except_ok_inj h
  subst e
  rfl

theorem begin_not_found_inaARRAY (M R UNIT_ID a : Nat) (s t : Sys) (hnf : ¬ found a s)
    (h : begin M R UNIT_ID a s = Except.ok t) : t.ina.inaARRAY = s.ina.inaARRAY := by
  unfold found at hnf
  unfold begin at h
  by_cases hp : (Wire.endTransmission (Wire.beginTransmission (a % 2 ^ 8) s.wire)).1 = 0
  · have hr := fun h2 => hnf ⟨hp, h2⟩
    simp only [hp, if_true, if_neg hr] at h
    have e := except_ok_inj h
    subst e
    rfl
  · simp only [if_neg hp] at h
    have e := except_ok_inj h
    subst e
    rfl

/-- The records after a `begin` that returns: untouched when the device is not found, and
only slot `u` touched when it is. -/
theorem begin_inaARRAY (M R a : Nat) (u : Fin INA_COUNT) (s t : Sys)
    (h : begin M R u.val a s = Except.ok t) :
    (∀ v, v ≠ u → t.ina.inaARRAY v = s.ina.inaARRAY v) ∧
    (¬ found a s → t.ina.inaARRAY = s.ina.inaARRAY) := by
  by_cases hf : found a s
  · refine ⟨?_, fun hnf => absurd hf hnf⟩
    by_cases hd : (M % 2 ^ 8 * 1000000 % 2 ^ 64 / 32767 % 2 ^ 32 * (R % 2 ^ 32) % 2 ^ 64)
        / 100000 = 0
    · exfalso
      obtain ⟨hp, hr⟩ := hf
      have hu := unit_lt u
      unfold begin at h
      simp only [hp, hr, if_true, dif_pos hu, if_pos hd] at h
      cases h
    · obtain ⟨t1, ht1, _, hothers, _⟩ := begin_of_found M R u a s hf hd
      have e : t1 = t := except_ok_inj (ht1.symm.trans h)
      rw [e] at hothers
      exact hothers
  · have harr := begin_not_found_inaARRAY M R u.val a s t hf h
    exact ⟨fun v _ => by rw [harr], fun _ => harr⟩

/-- C27: for every unit `u` of the array and every public operation on `u` that returns, the
records of all other slots are unchanged; an operation other than `begin` leaves `address`,
`calibration`, `current_LSB` and `power_LSB` of slot `u` unchanged, and unless it is `setMode`
(which stores `mode & 0x0F`) also `operatingMode`; and a `begin` that does not find the device
leaves every record unchanged. So the three scale fields of a slot change only inside a
`begin` that found the device. -/
theorem records_frame (u : Fin INA_COUNT) (c : Call) (s t : Sys)
    (h : c.apply u.val s = Except.ok t) :
    (∀ v, v ≠ u → t.ina.inaARRAY v = s.ina.inaARRAY v) ∧
    ((∀ M R a, c ≠ Call.setup M R a) →
      (t.ina.inaARRAY u).address = (s.ina.inaARRAY u).address ∧
      (t.ina.inaARRAY u).calibration = (s.ina.inaARRAY u).calibration ∧
      (t.ina.inaARRAY u).current_LSB = (s.ina.inaARRAY u).current_LSB ∧
      (t.ina.inaARRAY u).power_LSB = (s.ina.inaARRAY u).power_LSB) ∧
    ((∀ M R a, c ≠ Call.setup M R a) → (∀ m, c ≠ Call.mode m) →
      (t.ina.inaARRAY u).operatingMode = (s.ina.inaARRAY u).operatingMode) ∧
    (∀ m, c = Call.mode m → (t.ina.inaARRAY u).operatingMode = m &&& 0x0F) ∧
    (∀ M R a, c = Call.setup M R a → ¬ found a s → t.ina.inaARRAY = s.ina.inaARRAY) := by
  have same : ∀ (c : Call), (∀ m, c ≠ Call.mode m) → (∀ M R a, c ≠ Call.setup M R a) →
      t.ina.inaARRAY = s.ina.inaARRAY →
      (∀ v, v ≠ u → t.ina.inaARRAY v = s.ina.inaARRAY v) ∧
      ((∀ M R a, c ≠ Call.setup M R a) →
        (t.ina.inaARRAY u).address = (s.ina.inaARRAY u).address ∧
        (t.ina.inaARRAY u).calibration = (s.ina.inaARRAY u).calibration ∧
        (t.ina.inaARRAY u).current_LSB = (s.ina.inaARRAY u).current_LSB ∧
        (t.ina.inaARRAY u).power_LSB = (s.ina.inaARRAY u).power_LSB) ∧
      ((∀ M R a, c ≠ Call.setup M R a) → (∀ m, c ≠ Call.mode m) →
        (t.ina.inaARRAY u).operatingMode = (s.ina.inaARRAY u).operatingMode) ∧
      (∀ m, c = Call.mode m → (t.ina.inaARRAY u).operatingMode = m &&& 0x0F) ∧
      (∀ M R a, c = Call.setup M R a → ¬ found a s → t.ina.inaARRAY = s.ina.inaARRAY) := by
    intro c hnm hns harr
    refine ⟨fun v _ => by rw [harr], fun _ => ?_, fun _ _ => by rw [harr],
      fun m hm => absurd hm (hnm m), fun M R a hc => absurd hc (hns M R a)⟩
    rw [harr]
    exact ⟨rfl, rfl, rfl, rfl⟩
  cases c with
  | setup M R a =>
    obtain ⟨h1, h2⟩ := begin_inaARRAY M R a u s t h
    refine ⟨h1, fun hns => absurd rfl (hns M R a), fun hns _ => absurd rfl (hns M R a),
      fun m hm => (by cases hm), fun M2 R2 a2 hc hnf => ?_⟩
    injection hc with e1 e2 e3
    subst e3
    exact h2 hnf
  | mode m =>
    have harr := setMode_inaARRAY m u s t h
    refine ⟨fun v hv => by rw [harr, Function.update_noteq hv], fun _ => ?_,
      fun _ hnm => absurd rfl (hnm m), fun m2 hm => ?_, fun M R a hc => by cases hc⟩
    · rw [harr, Function.update_same]
      exact ⟨rfl, rfl, rfl, rfl⟩
    · injection hm with e
      subst e
      rw [harr, Function.update_same]
  | busVolts fuel w =>
    exact same _ (fun m hc => by cases hc) (fun M R a hc => by cases hc)
      (getBusMilliVolts_inaARRAY fuel w u.val s t h)
  | shuntVolts fuel w =>
    exact same _ (fun m hc => by cases hc) (fun M R a hc => by cases hc)
      (getShuntMicroVolts_inaARRAY fuel w u.val s t h)
  | microAmps =>
    exact same _ (fun m hc => by cases hc) (fun M R a hc => by cases hc)
      (getBusMicroAmps_inaARRAY u.val s t h)
  | microWatts =>
    exact same _ (fun m hc => by cases hc) (fun M R a hc => by cases hc)
      (getBusMicroWatts_inaARRAY u.val s t h)
  | resetUnit =>
    exact same _ (fun m hc => by cases hc) (fun M R a hc => by cases hc)
      (reset_inaARRAY u.val s t h)
  | averaging n =>
    exact same _ (fun m hc => by cases hc) (fun M R a hc => by cases hc)
      (setAveraging_inaARRAY n u.val s t h)
  | busTime k =>
    exact same _ (fun m hc => by cases hc) (fun M R a hc => by cases hc)
      (setBusConversion_inaARRAY k u.val s t h)
  | shuntTime k =>
    exact same _ (fun m hc => by cases hc) (fun M R a hc => by cases hc)
      (setShuntConversion_inaARRAY k u.val s t h)
  | wait fuel =>
    exact same _ (fun m hc => by cases hc) (fun M R a hc => by cases hc)
      (waitForConversion_frame fuel u.val s t h).1
  | alertPin b =>
    exact same _ (fun m hc => by cases hc) (fun M R a hc => by cases hc)
      (setAlertPinOnConversion_inaARRAY b u.val s t h)

/-- C27: the statement instantiated at `setMode 0x0B` on unit 1 of the two-slot registry. -/
theorem records_frame_witness :
    (Call.mode 0x0B).apply (1 : Fin INA_COUNT).val (twoSlotSys 0x4127) =
      Except.ok (((Call.mode 0x0B).apply 1 (twoSlotSys 0x4127)).toOption.getD (twoSlotSys 0)) ∧
    (∀ v, v ≠ (1 : Fin INA_COUNT) →
      (((Call.mode 0x0B).apply 1 (twoSlotSys 0x4127)).toOption.getD (twoSlotSys 0)).ina.inaARRAY v
        = (twoSlotSys 0x4127).ina.inaARRAY v) ∧
    ((((Call.mode 0x0B).apply 1 (twoSlotSys 0x4127)).toOption.getD
        (twoSlotSys 0)).ina.inaARRAY 1).operatingMode = 0x0B &&& 0x0F := by
  have h := records_frame 1 (Call.mode 0x0B) (twoSlotSys 0x4127)
    (((Call.mode 0x0B).apply 1 (twoSlotSys 0x4127)).toOption.getD (twoSlotSys 0)) rfl
  exact ⟨rfl, h.1, h.2.2.2.1 0x0B rfl⟩

end DBOE_INA226
